import Mathlib

/-!
Verification of the toucan graph-compilation core against its specification.

The development shallowly embeds the TypeScript sources
`src/lib/comfy/prompt.ts`, `src/lib/comfy/control-after-generate.ts` and
`src/components/graph/execution-context.ts`.  JavaScript numbers are
modelled as exact rationals extended with `NaN` and the two infinities
(`JSNum`); JavaScript records are modelled as insertion-ordered
association lists; the process-wide pseudo-random source is passed in as
an explicit stream of draws.
-/

/-- A JavaScript number: an exact rational or one of the non-finite values. -/
inductive JSNum where
  | finite (q : ℚ)
  | nan
  | posInf
  | negInf
deriving DecidableEq, Repr

namespace JSNum

/-- `Number.isFinite`. -/
def isFin : JSNum → Bool
  | .finite _ => true
  | _ => false

/-- Negation of a JavaScript number. -/
def neg : JSNum → JSNum
  | .finite q => .finite (-q)
  | .nan => .nan
  | .posInf => .negInf
  | .negInf => .posInf

/-- JavaScript `+` on numbers. -/
def add : JSNum → JSNum → JSNum
  | .finite a, .finite b => .finite (a + b)
  | .nan, _ | _, .nan => .nan
  | .posInf, .negInf | .negInf, .posInf => .nan
  | .posInf, _ | _, .posInf => .posInf
  | .negInf, _ | _, .negInf => .negInf

/-- JavaScript `-` on numbers. -/
def sub (a b : JSNum) : JSNum := add a (neg b)

/-- JavaScript `*` on numbers. -/
def mul : JSNum → JSNum → JSNum
  | .finite a, .finite b => .finite (a * b)
  | .nan, _ | _, .nan => .nan
  | .posInf, .posInf | .negInf, .negInf => .posInf
  | .posInf, .negInf | .negInf, .posInf => .negInf
  | .posInf, .finite b | .finite b, .posInf =>
      if b = 0 then .nan else if 0 < b then .posInf else .negInf
  | .negInf, .finite b | .finite b, .negInf =>
      if b = 0 then .nan else if 0 < b then .negInf else .posInf

/-- JavaScript `/` on numbers (the sign of a zero is not modelled). -/
def div : JSNum → JSNum → JSNum
  | .nan, _ | _, .nan => .nan
  | .finite a, .finite b =>
      if b = 0 then (if a = 0 then .nan else if 0 < a then .posInf else .negInf)
      else .finite (a / b)
  | .posInf, .finite b => if 0 ≤ b then .posInf else .negInf
  | .negInf, .finite b => if 0 ≤ b then .negInf else .posInf
  | .finite _, .posInf | .finite _, .negInf => .finite 0
  | .posInf, .posInf | .posInf, .negInf | .negInf, .posInf | .negInf, .negInf => .nan

/-- JavaScript `<` on numbers (any comparison with `NaN` is false). -/
def lt : JSNum → JSNum → Bool
  | .finite a, .finite b => decide (a < b)
  | .nan, _ | _, .nan => false
  | .posInf, _ => false
  | .negInf, .negInf => false
  | .negInf, _ => true
  | .finite _, .posInf => true
  | .finite _, .negInf => false

/-- `Math.max` on two numbers. -/
def max2 (a b : JSNum) : JSNum :=
  match a, b with
  | .nan, _ | _, .nan => .nan
  | x, y => if lt x y then y else x

/-- `Math.min` on two numbers. -/
def min2 (a b : JSNum) : JSNum :=
  match a, b with
  | .nan, _ | _, .nan => .nan
  | x, y => if lt x y then x else y

end JSNum

/-- Truncation of a rational toward zero, as `Math.trunc` computes it on
the embedded finite values. -/
def ratTrunc (q : ℚ) : ℤ := q.num.tdiv q.den

/-- Floor of a rational, as `Math.floor` computes it on the embedded
finite values. -/
def ratFloor (q : ℚ) : ℤ := q.num.fdiv q.den

/-- `Math.trunc`. -/
def jsTrunc : JSNum → JSNum
  | .finite q => .finite (ratTrunc q)
  | x => x

/-- `Math.floor`. -/
def jsFloor : JSNum → JSNum
  | .finite q => .finite (ratFloor q)
  | x => x

/-- A stored widget value (`WidgetValue` in `objectInfo.ts`): a string, a
number, a boolean, or `null`.  An absent value (`undefined`) is modelled
by `Option`. -/
inductive WidgetValue where
  | str (s : String)
  | num (n : JSNum)
  | bool (b : Bool)
  | null
deriving DecidableEq, Repr

/-- Lookup in an insertion-ordered association list, modelling property
access on a JavaScript record or `Map.get`. -/
def lookupA {α : Type _} : List (String × α) → String → Option α
  | [], _ => none
  | (k, v) :: rest, key => if k = key then some v else lookupA rest key

/-- Keyed update on an insertion-ordered association list, modelling
property assignment on a JavaScript record or `Map.set`: an existing key
keeps its position, a new key is appended. -/
def insertA {α : Type _} : List (String × α) → String → α → List (String × α)
  | [], key, value => [(key, value)]
  | (k, v) :: rest, key, value =>
      if k = key then (k, value) :: rest else (k, v) :: insertA rest key value

/-- JavaScript string truthiness for an optional string: `null`,
`undefined` and the empty string are falsy. -/
def strTruthy : Option String → Option String
  | some s => if s = "" then none else some s
  | none => none

/-- JavaScript whitespace, restricted to the common ASCII blanks. -/
def jsWhitespace (c : Char) : Bool :=
  c = ' ' ∨ c = '\t' ∨ c = '\n' ∨ c = '\r'

/-- Strip leading and trailing whitespace from a character list. -/
def trimChars (cs : List Char) : List Char :=
  ((cs.dropWhile jsWhitespace).reverse.dropWhile jsWhitespace).reverse

/-- `String.prototype.trim`, on the character-list view of strings. -/
def jsTrim (s : String) : String := ⟨trimChars s.data⟩

/-- `pat` is an initial segment of the list. -/
def listStarts {α : Type _} [DecidableEq α] : List α → List α → Bool
  | [], _ => true
  | _ :: _, [] => false
  | p :: ps, x :: xs => p = x && listStarts ps xs

/-- `String.prototype.startsWith`. -/
def strStarts (s pat : String) : Bool := listStarts pat.data s.data

/-- Split a character list at every `'.'`, like `String.split` at a dot. -/
def splitOnDot : List Char → List (List Char)
  | [] => [[]]
  | c :: rest =>
      let r := splitOnDot rest
      if c = '.' then [] :: r
      else
        match r with
        | [] => [[c]]
        | h :: t => (c :: h) :: t

/-- Parse the digit list of a natural number literal. -/
def parseNatDigits (cs : List Char) : Option ℕ :=
  if cs = [] then none
  else if cs.all (·.isDigit) then
    some (cs.foldl (fun acc c => acc * 10 + (c.toNat - 48)) 0)
  else none

/-- Models the JavaScript `Number(string)` conversion on the values the
core manipulates: surrounding whitespace is trimmed, the empty string
converts to `0`, and signed decimal literals (with an optional integer or
fractional part) convert exactly; every other string is modelled as
`NaN`. -/
def jsParseNumber (s : String) : JSNum :=
  let t := trimChars s.data
  if t = [] then .finite 0
  else
    let sign : ℚ := if t.head? = some '-' then -1 else 1
    let mag : List Char :=
      if t.head? = some '-' ∨ t.head? = some '+' then t.tail else t
    match splitOnDot mag with
    | [intPart] =>
        match parseNatDigits intPart with
        | some n => .finite (sign * n)
        | none => .nan
    | [intPart, fracPart] =>
        if intPart = [] ∧ fracPart = [] then .nan
        else
          let ip := if intPart = [] then some 0 else parseNatDigits intPart
          let fp := if fracPart = [] then some 0 else parseNatDigits fracPart
          match ip, fp with
          | some i, some f =>
              .finite (sign * ((i : ℚ) + (f : ℚ) / (10 : ℚ) ^ fracPart.length))
          | _, _ => .nan
    | _ => .nan

unseal Rat.mul Rat.add Rat.sub Rat.inv in
example : jsParseNumber "-2.5" = .finite (-(5/2)) ∧ jsParseNumber "12" = .finite 12 ∧
    jsParseNumber "" = .finite 0 ∧ jsParseNumber "x2" = .nan ∧
    ratTrunc (-(3/2)) = -1 ∧ ratFloor (-(3/2)) = -2 := by decide

/-! ## The schema catalog data model (`objectInfo.ts`)

The module `objectInfo.ts` only declares the record shapes consumed by the
embedded code; the fields below are exactly the ones the embedded sources
read. -/

/-- The `config` record of an input slot.  A field whose stored value is
not a JavaScript number is modelled as absent, since every read site
guards with `typeof · === "number"`. -/
structure SlotConfig where
  min : Option JSNum := none
  max : Option JSNum := none
  step : Option JSNum := none
  control_after_generate : Option WidgetValue := none
deriving DecidableEq, Repr

/-- The widget presentation spec attached to an input slot. -/
structure WidgetSpec where
  kind : String
  defaultValue : Option WidgetValue := none
  options : Option (List String) := none
deriving DecidableEq, Repr

/-- An input slot spec of a node schema. -/
structure InputSlot where
  name : String
  group : String
  valueType : String
  options : List String := []
  supportsWidget : Bool := true
  forceInput : Bool := false
  config : Option SlotConfig := none
  widgetSpec : Option WidgetSpec := none
deriving DecidableEq, Repr

/-- An output slot spec of a node schema. -/
structure OutputSlot where
  name : String
  type : String
deriving DecidableEq, Repr

/-- A node schema: display name plus ordered input and output slot specs. -/
structure NodeSchema where
  displayName : String
  inputs : List InputSlot
  outputs : List OutputSlot
deriving DecidableEq, Repr

/-- The read-only schema catalog, a record keyed by node type name. -/
abbrev NodeSchemaMap := List (String × NodeSchema)

/-- Modelled from the spec: `getWidgetSpec` lives in the absent
`objectInfo.ts`; per the spec it derives the widget presentation (kind,
declared default, option list) from a slot spec, so it is embedded as a
field of the slot itself. -/
def getWidgetSpec (slot : InputSlot) : Option WidgetSpec := slot.widgetSpec

/-! ## Graph snapshot data model -/

/-- The `data` payload of a canvas node. -/
structure NodeData where
  nodeType : Option String := none
  widgetValues : Option (List (String × WidgetValue)) := none
  widgetControlValues : Option (List (String × String)) := none
deriving DecidableEq, Repr

/-- A canvas node as the core reads it (`GraphNodeLike` / `CanvasNode` /
`ControlNodeLike`). -/
structure GraphNode where
  id : String
  data : Option NodeData := none
deriving DecidableEq, Repr

/-- A canvas edge or candidate connection (`GraphEdgeLike` /
`Connection`). -/
structure GraphEdge where
  source : Option String := none
  target : Option String := none
  sourceHandle : Option String := none
  targetHandle : Option String := none
deriving DecidableEq, Repr

/-- The truthy node type of a node, `node.data?.nodeType` under the
`if (!nodeType)` guard. -/
def nodeTypeOf (node : GraphNode) : Option String :=
  strTruthy (node.data.bind (·.nodeType))

/-! ## `prompt.ts` — the request compiler -/

/-- A connection reference `[sourceNodeId, outputIndex]`. -/
abbrev PromptConnection := String × ℕ

/-- A compiled input value: a literal widget value, a single connection
reference, or a list of connection references.  The constructors model
the runtime shape tests `isPromptConnection` / `isPromptConnectionList`,
which are unambiguous because a stored widget value is never an array. -/
inductive PromptInputValue where
  | widget (v : WidgetValue)
  | conn (c : PromptConnection)
  | connList (l : List PromptConnection)
deriving DecidableEq, Repr

/-- A compiled request node. -/
structure PromptNode where
  class_type : String
  inputs : List (String × PromptInputValue)
deriving DecidableEq, Repr

/-- The compiled request graph. -/
abbrev PromptMap := List (String × PromptNode)

/-- The compiler output. -/
structure PromptBuildResult where
  prompt : PromptMap
  errors : List String
  warnings : List String
deriving DecidableEq, Repr

/-- `parseHandleSlotName`: strip the direction marker from a handle id,
yielding the slot name when it is non-empty. -/
def parseHandleSlotName (handleId : Option String) (pfx : String) : Option String :=
  match handleId with
  | none => none
  | some h =>
      if strStarts h pfx then
        let slotName := h.data.drop pfx.data.length
        if slotName.length > 0 then some (⟨slotName⟩ : String) else none
      else none

/-- `resolveNumberValue`: coerce a widget value to a number, truncating
for integer slots; non-finite results and blank strings are unresolved. -/
def resolveNumberValue (value : WidgetValue) (isInteger : Bool) : Option JSNum :=
  match value with
  | .num n => if n.isFin then some (if isInteger then jsTrunc n else n) else none
  | .str s =>
      if trimChars s.data = [] then none
      else
        let parsed := jsParseNumber s
        if parsed.isFin then some (if isInteger then jsTrunc parsed else parsed) else none
  | _ => none

/-- `String(value)`: the JavaScript stringification of a widget value, as
far as the embedded code exercises it. -/
def jsToString (v : WidgetValue) : String :=
  match v with
  | .str s => s
  | .bool true => "true"
  | .bool false => "false"
  | .null => "null"
  | .num .nan => "NaN"
  | .num .posInf => "Infinity"
  | .num .negInf => "-Infinity"
  | .num (.finite q) => toString q.num ++ (if q.den = 1 then "" else "/" ++ toString q.den)

/-- `rawValue ?? fallbackValue`: nullish coalescing. -/
def jsCoalesce (a b : Option WidgetValue) : Option WidgetValue :=
  match a with
  | some v => if v = .null then b else some v
  | none => b

/-- `toLowerCase`, on the character-list view of strings. -/
def jsToLower (s : String) : String := ⟨s.data.map (·.toLower)⟩

/-- `resolveWidgetValue`: coerce a stored value (or the declared default)
into the canonical value for a slot, or `none` when unresolved. -/
def resolveWidgetValue (slot : InputSlot) (rawValue fallbackValue : Option WidgetValue) :
    Option WidgetValue :=
  match jsCoalesce rawValue fallbackValue with
  | none => none
  | some v =>
      if v = .null then none
      else if slot.options.length > 0 ∨ slot.valueType = "STRING" then
        some (match v with
          | .str s => .str s
          | other => .str (jsToString other))
      else if slot.valueType = "BOOLEAN" then
        match v with
        | .bool b => some (.bool b)
        | .str s =>
            if jsToLower s = "true" then some (.bool true)
            else if jsToLower s = "false" then some (.bool false)
            else none
        | _ => none
      else if slot.valueType = "INT" then (resolveNumberValue v true).map .num
      else if slot.valueType = "FLOAT" then (resolveNumberValue v false).map .num
      else some v

/-- `mergePromptConnection`: merge a new connection reference into the
existing value of a target input slot.  The JavaScript shape tests are
folded into the constructors; a falsy or truthy literal alike falls
through to the final `return connection`. -/
def mergePromptConnection (existing : Option PromptInputValue)
    (connection : PromptConnection) : PromptInputValue :=
  match existing with
  | none => .conn connection
  | some (.conn e) => .connList [e, connection]
  | some (.connList l) => if l.isEmpty then .conn connection else .connList (l ++ [connection])
  | some (.widget _) => .conn connection

/-- The "missing a type" warning text. -/
def missingTypeMsg (nodeId : String) : String :=
  "Node " ++ nodeId ++ " is missing a type."

/-- The "missing schema" warning text. -/
def missingSchemaMsg (nodeType nodeId : String) : String :=
  "Missing schema for " ++ nodeType ++ " (" ++ nodeId ++ ")."

/-- The "unknown output" warning text. -/
def unknownOutputMsg (slotName nodeType nodeId : String) : String :=
  "Unknown output " ++ slotName ++ " on " ++ nodeType ++ " (" ++ nodeId ++ ")."

/-- The blocking "missing required input" error text. -/
def missingRequiredMsg (slotName displayName nodeId : String) : String :=
  "Missing required input " ++ slotName ++ " on " ++ displayName ++ " (" ++ nodeId ++ ")."

/-- The dedupe key used for the missing-type warning of a node. -/
def missingTypeKey (nodeId : String) : String := "missing-type-" ++ nodeId

/-- The dedupe key used for the missing-schema warning of a node. -/
def missingSchemaKey (nodeId : String) : String := "missing-schema-" ++ nodeId

/-- The mutable locals of one `buildPromptFromGraph` invocation. -/
structure BuildState where
  errors : List String
  warnings : List String
  prompt : PromptMap
  nodeById : List (String × GraphNode)
  schemaWarningKeys : List String
deriving DecidableEq, Repr

/-- `pushWarning`: append a warning, suppressing it when its dedupe key
was already recorded. -/
def pushWarning (st : BuildState) (message : String) (dedupeKey : Option String) :
    BuildState :=
  match dedupeKey with
  | some key =>
      if key ∈ st.schemaWarningKeys then st
      else { st with
        schemaWarningKeys := st.schemaWarningKeys ++ [key]
        warnings := st.warnings ++ [message] }
  | none => { st with warnings := st.warnings ++ [message] }

/-- Phase 1, schema branch: resolve every non-hidden direct-entry input
slot of a schema against the stored widget values, writing resolved
values into the compiled input map. -/
def resolveSchemaInputs (schema : NodeSchema) (widgetValues : List (String × WidgetValue)) :
    List (String × PromptInputValue) :=
  schema.inputs.foldl
    (fun inputs slot =>
      if slot.group = "hidden" then inputs
      else if ¬ slot.supportsWidget ∨ slot.forceInput then inputs
      else
        let rawValue := lookupA widgetValues slot.name
        let fallbackValue :=
          if rawValue = none then (getWidgetSpec slot).bind (·.defaultValue) else none
        match resolveWidgetValue slot rawValue fallbackValue with
        | some resolved => insertA inputs slot.name (.widget resolved)
        | none => inputs)
    []

/-- Phase 1, missing-schema branch: copy every stored field that is not
nullish, verbatim. -/
def copyWidgetValues (widgetValues : List (String × WidgetValue)) :
    List (String × PromptInputValue) :=
  widgetValues.foldl
    (fun inputs kv => if kv.2 = .null then inputs else insertA inputs kv.1 (.widget kv.2))
    []

/-- Phase 1 loop body: register the node in the id index and compile its
field values (or warn about a missing type or schema). -/
def processNode (nodeSchemas : NodeSchemaMap) (st : BuildState) (node : GraphNode) :
    BuildState :=
  let st := { st with nodeById := insertA st.nodeById node.id node }
  match nodeTypeOf node with
  | none => pushWarning st (missingTypeMsg node.id) (some (missingTypeKey node.id))
  | some nodeType =>
      let widgetValues := (node.data.bind (·.widgetValues)).getD []
      match lookupA nodeSchemas nodeType with
      | some schema =>
          let pn : PromptNode := ⟨nodeType, resolveSchemaInputs schema widgetValues⟩
          { st with prompt := insertA st.prompt node.id pn }
      | none =>
          let st := pushWarning st (missingSchemaMsg nodeType node.id)
            (some (missingSchemaKey node.id))
          let pn : PromptNode := ⟨nodeType, copyWidgetValues widgetValues⟩
          { st with prompt := insertA st.prompt node.id pn }

/-- Phase 2 loop body: wire one edge into the compiled request graph.
Note that the unknown-output warning is pushed without a dedupe key. -/
def processEdge (nodeSchemas : NodeSchemaMap) (st : BuildState) (edge : GraphEdge) :
    BuildState :=
  match strTruthy edge.source, strTruthy edge.target with
  | some source, some target =>
      match parseHandleSlotName edge.sourceHandle "out-",
            parseHandleSlotName edge.targetHandle "in-" with
      | some sourceSlotName, some targetSlotName =>
          match lookupA st.nodeById source, lookupA st.nodeById target with
          | some sourceNode, some targetNode =>
              match strTruthy (sourceNode.data.bind (·.nodeType)) with
              | none => st
              | some sourceType =>
                  match lookupA nodeSchemas sourceType with
                  | none => pushWarning st (missingSchemaMsg sourceType sourceNode.id)
                      (some (missingSchemaKey sourceNode.id))
                  | some sourceSchema =>
                      match sourceSchema.outputs.findIdx? (·.name = sourceSlotName) with
                      | none => pushWarning st
                          (unknownOutputMsg sourceSlotName sourceType sourceNode.id) none
                      | some outputIndex =>
                          match lookupA st.prompt targetNode.id with
                          | none => st
                          | some targetPrompt =>
                              let connection : PromptConnection := (sourceNode.id, outputIndex)
                              let merged := mergePromptConnection
                                (lookupA targetPrompt.inputs targetSlotName) connection
                              let newInputs := insertA targetPrompt.inputs targetSlotName merged
                              let tp := { targetPrompt with inputs := newInputs }
                              { st with prompt := insertA st.prompt targetNode.id tp }
          | _, _ => st
      | _, _ => st
  | _, _ => st

/-- Phase 3 per-node check: the blocking errors for the required input
slots of one node that stayed absent from its compiled input map. -/
def requiredErrors (nodeSchemas : NodeSchemaMap) (prompt : PromptMap) (node : GraphNode) :
    List String :=
  match nodeTypeOf node with
  | none => []
  | some nodeType =>
      match lookupA nodeSchemas nodeType with
      | none => []
      | some schema =>
          match lookupA prompt node.id with
          | none => []
          | some promptNode =>
              schema.inputs.foldl
                (fun errs slot =>
                  if slot.group ≠ "required" then errs
                  else if (lookupA promptNode.inputs slot.name).isSome then errs
                  else errs ++ [missingRequiredMsg slot.name schema.displayName node.id])
                []

/-- `buildPromptFromGraph`: compile a graph snapshot into a request
graph, diagnostics included. -/
def buildPromptFromGraph (nodes : List GraphNode) (edges : List GraphEdge)
    (nodeSchemas : NodeSchemaMap) : PromptBuildResult :=
  let st0 : BuildState := ⟨[], [], [], [], []⟩
  let st1 := nodes.foldl (processNode nodeSchemas) st0
  let st2 := edges.foldl (processEdge nodeSchemas) st1
  let errors := nodes.foldl
    (fun errs node => errs ++ requiredErrors nodeSchemas st2.prompt node) st2.errors
  ⟨st2.prompt, errors, st2.warnings⟩

/-! ### A concrete two-node fixture (the end-to-end example of the spec) -/

/-- Fixture: a source schema with one output slot `IMAGE`. -/
def exSchemaA : NodeSchema := ⟨"A disp", [], [⟨"IMAGE", "IMAGE"⟩]⟩

/-- Fixture: a required connection-only input slot `image`. -/
def exSlotImage : InputSlot :=
  { name := "image", group := "required", valueType := "IMAGE", supportsWidget := false }

/-- Fixture: a target schema with the single required input `image`. -/
def exSchemaB : NodeSchema := ⟨"B disp", [exSlotImage], []⟩

/-- Fixture: the two-type schema catalog. -/
def exSchemas : NodeSchemaMap := [("TA", exSchemaA), ("TB", exSchemaB)]

/-- Fixture: the source node. -/
def exNodeA : GraphNode := ⟨"a1", some { nodeType := some "TA" }⟩

/-- Fixture: the target node. -/
def exNodeB : GraphNode := ⟨"b1", some { nodeType := some "TB" }⟩

/-- Fixture: the edge `a1.out-IMAGE -> b1.in-image`. -/
def exEdge : GraphEdge := ⟨some "a1", some "b1", some "out-IMAGE", some "in-image"⟩

example : buildPromptFromGraph [exNodeA, exNodeB] [exEdge] exSchemas =
    ⟨[("a1", ⟨"TA", []⟩), ("b1", ⟨"TB", [("image", .conn ("a1", 0))]⟩)], [], []⟩ := by decide

example : (buildPromptFromGraph [exNodeA, exNodeB] [] exSchemas).errors =
    ["Missing required input image on B disp (b1)."] := by decide

/-! ## C1 — edge-wiring merge behaviour and arrival order -/

/-- Repeatedly wiring connections into one target slot, as the phase-2
loop does for a fixed `(target node, target slot)` pair. -/
def mergeSequence (init : Option PromptInputValue) (conns : List PromptConnection) :
    Option PromptInputValue :=
  conns.foldl (fun v c => some (mergePromptConnection v c)) init

lemma mergeSequence_connList (e : PromptConnection) (cs : List PromptConnection) :
    ∀ l, mergeSequence (some (.connList (e :: l))) cs = some (.connList ((e :: l) ++ cs)) := by
  induction cs with
  | nil => intro l; simp [mergeSequence]
  | cons c cs ih =>
      intro l
      have hstep : mergePromptConnection (some (.connList (e :: l))) c =
          .connList (e :: (l ++ [c])) := by simp [mergePromptConnection]
      have h2 := ih (l ++ [c])
      simp only [mergeSequence, List.foldl_cons] at h2 ⊢
      rw [hstep, h2]
      simp

/-- C1: in the edge-wiring phase, merging connections into one input
slot sets the first connection directly on an empty slot, turns a single
existing connection into the ordered pair, appends to an existing list,
and overwrites a literal; consequently a run of wired connections ends up
as the list of those connections in arrival order, whether the slot
started empty or held a literal. -/
theorem merge_prompt_connection_spec :
    (∀ c, mergePromptConnection none c = .conn c) ∧
    (∀ e c, mergePromptConnection (some (.conn e)) c = .connList [e, c]) ∧
    (∀ e l c, mergePromptConnection (some (.connList (e :: l))) c =
      .connList (e :: l ++ [c])) ∧
    (∀ w c, mergePromptConnection (some (.widget w)) c = .conn c) ∧
    (∀ c1 c2 cs, mergeSequence none (c1 :: c2 :: cs) =
      some (.connList (c1 :: c2 :: cs))) ∧
    (∀ w c1 c2 cs, mergeSequence (some (.widget w)) (c1 :: c2 :: cs) =
      some (.connList (c1 :: c2 :: cs))) := by
  refine ⟨fun c => rfl, fun e c => rfl, fun e l c => by simp [mergePromptConnection],
    fun w c => rfl, fun c1 c2 cs => ?_, fun w c1 c2 cs => ?_⟩
  · have h := mergeSequence_connList c1 cs [c2]
    simp only [mergeSequence, List.foldl_cons] at h ⊢
    rw [show mergePromptConnection none c1 = .conn c1 from rfl,
      show mergePromptConnection (some (.conn c1)) c2 = .connList [c1, c2] from rfl]
    simpa using h
  · have h := mergeSequence_connList c1 cs [c2]
    simp only [mergeSequence, List.foldl_cons] at h ⊢
    rw [show mergePromptConnection (some (.widget w)) c1 = .conn c1 from rfl,
      show mergePromptConnection (some (.conn c1)) c2 = .connList [c1, c2] from rfl]
    simpa using h

/-! ## Association-list lemmas -/


lemma lookupA_insertA {α : Type _} (k : String) (v : α) :
    ∀ (l : List (String × α)) (k' : String),
      lookupA (insertA l k v) k' = if k' = k then some v else lookupA l k'
  | [], k' => by
      by_cases h : k' = k
      · subst h; simp [insertA, lookupA]
      · have h' : ¬ k = k' := fun hh => h hh.symm
        simp [insertA, lookupA, h, h']
  | (pk, pv) :: rest, k' => by
      by_cases h1 : pk = k
      · subst h1
        by_cases h2 : pk = k'
        · subst h2; simp [insertA, lookupA]
        · have h2' : ¬ k' = pk := fun hh => h2 hh.symm
          simp [insertA, lookupA, h2, h2']
      · have ih := lookupA_insertA k v rest k'
        by_cases h2 : pk = k'
        · subst h2
          have h4 : ¬ k = pk := fun hh => h1 hh.symm
          simp [insertA, lookupA, h1, ih, h4]
        · simp [insertA, lookupA, h1, h2, ih]

/-! ## C2 — blocking errors are exactly the missing required inputs -/

lemma foldl_req_mem (dn nid : String) (pn : PromptNode) (inputs : List InputSlot) :
    ∀ (init : List String) (e : String),
      (e ∈ inputs.foldl (fun errs slot =>
          if slot.group ≠ "required" then errs
          else if (lookupA pn.inputs slot.name).isSome then errs
          else errs ++ [missingRequiredMsg slot.name dn nid]) init) ↔
      (e ∈ init ∨ ∃ slot ∈ inputs, slot.group = "required" ∧
        lookupA pn.inputs slot.name = none ∧ e = missingRequiredMsg slot.name dn nid) := by
  induction inputs with
  | nil => intro init e; simp
  | cons slot rest ih =>
      intro init e
      simp only [List.foldl_cons]
      by_cases hg : slot.group = "required"
      · by_cases hs : (lookupA pn.inputs slot.name).isSome
        · have hnone : ¬ lookupA pn.inputs slot.name = none := by
            rcases h : lookupA pn.inputs slot.name with _ | val
            · rw [h] at hs; simp at hs
            · simp
          rw [if_neg (by simp [hg]), if_pos hs, ih]
          simp only [List.mem_cons]
          constructor
          · rintro (h | ⟨s, hs1, hs2⟩)
            · exact Or.inl h
            · exact Or.inr ⟨s, Or.inr hs1, hs2⟩
          · rintro (h | ⟨s, (rfl | hs1), hs2⟩)
            · exact Or.inl h
            · exact absurd hs2.2.1 hnone
            · exact Or.inr ⟨s, hs1, hs2⟩
        · have hnone : lookupA pn.inputs slot.name = none := by
            rcases h : lookupA pn.inputs slot.name with _ | val
            · rfl
            · rw [h] at hs; simp at hs
          rw [if_neg (by simp [hg]), if_neg hs, ih]
          simp only [List.mem_cons, List.mem_append, List.mem_singleton,
            List.not_mem_nil, or_false]
          constructor
          · rintro ((h | rfl) | ⟨s, hs1, hs2⟩)
            · exact Or.inl h
            · exact Or.inr ⟨slot, Or.inl rfl, hg, hnone, rfl⟩
            · exact Or.inr ⟨s, Or.inr hs1, hs2⟩
          · rintro (h | ⟨s, (rfl | hs1), hs2⟩)
            · exact Or.inl (Or.inl h)
            · exact Or.inl (Or.inr hs2.2.2)
            · exact Or.inr ⟨s, hs1, hs2⟩
      · rw [if_pos (by simp [hg]), ih]
        simp only [List.mem_cons]
        constructor
        · rintro (h | ⟨s, hs1, hs2⟩)
          · exact Or.inl h
          · exact Or.inr ⟨s, Or.inr hs1, hs2⟩
        · rintro (h | ⟨s, (rfl | hs1), hs2⟩)
          · exact Or.inl h
          · exact absurd hs2.1 hg
          · exact Or.inr ⟨s, hs1, hs2⟩

lemma mem_requiredErrors (nodeSchemas : NodeSchemaMap) (prompt : PromptMap)
    (node : GraphNode) (e : String) :
    e ∈ requiredErrors nodeSchemas prompt node ↔
      ∃ t sch pn, nodeTypeOf node = some t ∧ lookupA nodeSchemas t = some sch ∧
        lookupA prompt node.id = some pn ∧
        ∃ slot ∈ sch.inputs, slot.group = "required" ∧
          lookupA pn.inputs slot.name = none ∧
          e = missingRequiredMsg slot.name sch.displayName node.id := by
  rcases h1 : nodeTypeOf node with _ | t
  · simp [requiredErrors, h1]
  · rcases h2 : lookupA nodeSchemas t with _ | sch
    · simp [requiredErrors, h1, h2]
    · rcases h3 : lookupA prompt node.id with _ | pn
      · simp [requiredErrors, h1, h2, h3]
      · have hf := foldl_req_mem sch.displayName node.id pn sch.inputs [] e
        simp only [requiredErrors, h1, h2, h3]
        rw [hf]
        simp [h1, h2, h3]

lemma pushWarning_errors (st : BuildState) (m : String) (k : Option String) :
    (pushWarning st m k).errors = st.errors := by
  rcases k with _ | key
  · rfl
  · simp only [pushWarning]
    split_ifs <;> rfl

lemma processNode_errors (nodeSchemas : NodeSchemaMap) (st : BuildState)
    (node : GraphNode) : (processNode nodeSchemas st node).errors = st.errors := by
  rcases h1 : nodeTypeOf node with _ | t
  · simp [processNode, h1, pushWarning_errors]
  · rcases h2 : lookupA nodeSchemas t with _ | sch
    · simp [processNode, h1, h2, pushWarning_errors]
    · simp [processNode, h1, h2]

lemma processEdge_errors (nodeSchemas : NodeSchemaMap) (st : BuildState)
    (edge : GraphEdge) : (processEdge nodeSchemas st edge).errors = st.errors := by
  unfold processEdge
  repeat' split
  all_goals first | rfl | apply pushWarning_errors

lemma foldl_processNode_errors (nodeSchemas : NodeSchemaMap) (nodes : List GraphNode) :
    ∀ st : BuildState, (nodes.foldl (processNode nodeSchemas) st).errors = st.errors := by
  induction nodes with
  | nil => intro st; rfl
  | cons n rest ih =>
      intro st
      rw [List.foldl_cons, ih, processNode_errors]

lemma foldl_processEdge_errors (nodeSchemas : NodeSchemaMap) (edges : List GraphEdge) :
    ∀ st : BuildState, (edges.foldl (processEdge nodeSchemas) st).errors = st.errors := by
  induction edges with
  | nil => intro st; rfl
  | cons n rest ih =>
      intro st
      rw [List.foldl_cons, ih, processEdge_errors]

lemma mem_foldl_append {α : Type _} (f : α → List String) (l : List α) :
    ∀ (init : List String) (e : String),
      (e ∈ l.foldl (fun acc x => acc ++ f x) init) ↔
        e ∈ init ∨ ∃ x ∈ l, e ∈ f x := by
  induction l with
  | nil => intro init e; simp
  | cons x rest ih =>
      intro init e
      rw [List.foldl_cons, ih]
      simp only [List.mem_append, List.mem_cons]
      constructor
      · rintro ((h | h) | ⟨y, hy1, hy2⟩)
        · exact Or.inl h
        · exact Or.inr ⟨x, Or.inl rfl, h⟩
        · exact Or.inr ⟨y, Or.inr hy1, hy2⟩
      · rintro (h | ⟨y, (rfl | hy1), hy2⟩)
        · exact Or.inl (Or.inl h)
        · exact Or.inl (Or.inr hy2)
        · exact Or.inr ⟨y, hy1, hy2⟩

/-- C2: a blocking error is appended exactly for a node whose type has a
known schema and whose compiled input map misses a required slot name,
and its text cites the schema display name and the node id; in
particular, a node whose type lacks a schema never yields a blocking
error. -/
theorem build_prompt_errors_iff (nodes : List GraphNode) (edges : List GraphEdge)
    (nodeSchemas : NodeSchemaMap) (e : String) :
    e ∈ (buildPromptFromGraph nodes edges nodeSchemas).errors ↔
      ∃ node ∈ nodes, ∃ t sch pn, nodeTypeOf node = some t ∧
        lookupA nodeSchemas t = some sch ∧
        lookupA (buildPromptFromGraph nodes edges nodeSchemas).prompt node.id = some pn ∧
        ∃ slot ∈ sch.inputs, slot.group = "required" ∧
          lookupA pn.inputs slot.name = none ∧
          e = missingRequiredMsg slot.name sch.displayName node.id := by
  have hst2 : ((nodes.foldl (processNode nodeSchemas) ⟨[], [], [], [], []⟩ :
      BuildState) |> (fun st1 => edges.foldl (processEdge nodeSchemas) st1)).errors = [] := by
    rw [foldl_processEdge_errors, foldl_processNode_errors]
  simp only [buildPromptFromGraph]
  rw [mem_foldl_append]
  simp only [hst2, List.not_mem_nil, false_or]
  constructor
  · rintro ⟨n, hn, h⟩
    exact ⟨n, hn, (mem_requiredErrors _ _ _ _).mp h⟩
  · rintro ⟨n, hn, h⟩
    exact ⟨n, hn, (mem_requiredErrors _ _ _ _).mpr h⟩

/-! ## Truncation toward zero -/

lemma ratFloor_eq_floor (q : ℚ) : ratFloor q = ⌊q⌋ := by
  rw [ratFloor, Int.fdiv_eq_ediv _ (Int.ofNat_nonneg q.den), Rat.floor_def]

lemma ratTrunc_of_nonneg (q : ℚ) (h : 0 ≤ q) : ratTrunc q = ⌊q⌋ := by
  rw [ratTrunc, Int.tdiv_eq_ediv (Rat.num_nonneg.mpr h) (Int.ofNat_nonneg q.den),
    Rat.floor_def]

lemma ratTrunc_of_nonpos (q : ℚ) (h : q ≤ 0) : ratTrunc q = ⌈q⌉ := by
  have hq : ratTrunc q = -(ratTrunc (-q)) := by
    rw [ratTrunc, ratTrunc, Rat.neg_num, Rat.neg_den, Int.neg_tdiv, neg_neg]
  rw [hq, ratTrunc_of_nonneg (-q) (by linarith), Int.floor_neg, neg_neg]

/-! ## C10 — a stored `null` is unresolved and bypasses the default -/

/-- The per-slot resolution step of phase 1: look up the stored value,
fall back to the declared default only when the key is absent, and run
the resolver. -/
def resolveSlotEntry (slot : InputSlot) (widgetValues : List (String × WidgetValue)) :
    Option WidgetValue :=
  let rawValue := lookupA widgetValues slot.name
  let fallbackValue :=
    if rawValue = none then (getWidgetSpec slot).bind (·.defaultValue) else none
  resolveWidgetValue slot rawValue fallbackValue

/-- `resolveSchemaInputs` is the fold of `resolveSlotEntry` over the
schema's slots. -/
lemma resolveSchemaInputs_eq (schema : NodeSchema) (wv : List (String × WidgetValue)) :
    resolveSchemaInputs schema wv = schema.inputs.foldl
      (fun inputs slot =>
        if slot.group = "hidden" then inputs
        else if ¬ slot.supportsWidget ∨ slot.forceInput then inputs
        else
          match resolveSlotEntry slot wv with
          | some resolved => insertA inputs slot.name (.widget resolved)
          | none => inputs)
      [] := rfl

lemma resolveSlotEntry_null (slot : InputSlot) (wv : List (String × WidgetValue))
    (h : lookupA wv slot.name = some .null) : resolveSlotEntry slot wv = none := by
  simp [resolveSlotEntry, h, resolveWidgetValue, jsCoalesce]

/-- C10: a stored `null` resolves to unresolved for every slot — in
particular whatever the declared default is — and the whole compiled
input map of a schema is empty when every slot's stored value is `null`;
the declared default enters the resolution exactly when the stored value
is absent, and is not passed at all when any stored value is present. -/
theorem null_widget_value_bypasses_default :
    (∀ (slot : InputSlot) (wv : List (String × WidgetValue)),
        lookupA wv slot.name = some .null → resolveSlotEntry slot wv = none) ∧
    (∀ (slot : InputSlot) (wv : List (String × WidgetValue)) (v : WidgetValue),
        lookupA wv slot.name = some v →
        resolveSlotEntry slot wv = resolveWidgetValue slot (some v) none) ∧
    (∀ (slot : InputSlot) (wv : List (String × WidgetValue)),
        lookupA wv slot.name = none →
        resolveSlotEntry slot wv =
          resolveWidgetValue slot none ((getWidgetSpec slot).bind (·.defaultValue))) ∧
    (∀ (schema : NodeSchema) (wv : List (String × WidgetValue)),
        (∀ slot ∈ schema.inputs, lookupA wv slot.name = some .null) →
        resolveSchemaInputs schema wv = []) := by
  refine ⟨resolveSlotEntry_null, ?_, ?_, ?_⟩
  · intro slot wv v h
    simp [resolveSlotEntry, h]
  · intro slot wv h
    simp [resolveSlotEntry, h]
  · intro schema wv hall
    rw [resolveSchemaInputs_eq]
    have aux : ∀ (inputs : List InputSlot) (acc : List (String × PromptInputValue)),
        (∀ slot ∈ inputs, lookupA wv slot.name = some .null) →
        inputs.foldl
          (fun inputs slot =>
            if slot.group = "hidden" then inputs
            else if ¬ slot.supportsWidget ∨ slot.forceInput then inputs
            else
              match resolveSlotEntry slot wv with
              | some resolved => insertA inputs slot.name (.widget resolved)
              | none => inputs)
          acc = acc := by
      intro inputs
      induction inputs with
      | nil => intro acc _; rfl
      | cons s rest ih =>
          intro acc hall2
          have hs := hall2 s (List.mem_cons_self _ _)
          rw [List.foldl_cons]
          have hrest : ∀ slot ∈ rest, lookupA wv slot.name = some .null :=
            fun slot hm => hall2 slot (List.mem_cons_of_mem _ hm)
          rw [resolveSlotEntry_null s wv hs]
          by_cases h1 : s.group = "hidden"
          · rw [if_pos h1]; exact ih acc hrest
          · rw [if_neg h1]
            by_cases h2 : ¬ s.supportsWidget ∨ s.forceInput
            · rw [if_pos h2]; exact ih acc hrest
            · rw [if_neg h2]; exact ih acc hrest
    exact aux schema.inputs [] hall

/-- Fixture: declared numeric bounds `min 0, max 10, step 1`. -/
def exSeedConfig : SlotConfig :=
  { min := some (.finite 0), max := some (.finite 10), step := some (.finite 1) }

/-- Fixture: a number widget with declared default `7`. -/
def exSeedSpec : WidgetSpec := { kind := "number", defaultValue := some (.num (.finite 7)) }

/-- Fixture: an INT seed slot with declared bounds and a declared default. -/
def exSlotSeed : InputSlot :=
  { name := "seed", group := "required", valueType := "INT",
    config := some exSeedConfig, widgetSpec := some exSeedSpec }

/-- Fixture: a schema holding only the seed slot. -/
def exSchemaSeed : NodeSchema := ⟨"Seeded", [exSlotSeed], []⟩

theorem null_widget_value_bypasses_default_witness :
    resolveSlotEntry exSlotSeed [("seed", WidgetValue.null)] = none ∧
    resolveSchemaInputs exSchemaSeed [("seed", WidgetValue.null)] = [] := by
  constructor
  · exact null_widget_value_bypasses_default.1 exSlotSeed _ (by decide)
  · exact null_widget_value_bypasses_default.2.2.2 exSchemaSeed _ (by decide)

/-! ## C6 — resolver behaviour per declared kind -/

/-- C6: on a non-enumerated INT slot the resolver truncates finite
numbers and parsed numeric strings toward zero (`ratTrunc` is floor on
nonnegatives and ceiling on nonpositives) and is unresolved on non-finite
numbers and blank strings; FLOAT is identical without truncation;
BOOLEAN passes booleans through, maps case-insensitive `"true"/"false"`
strings, and is otherwise unresolved. -/
theorem resolve_widget_value_kinds :
    (∀ q : ℚ, 0 ≤ q → ratTrunc q = ⌊q⌋) ∧
    (∀ q : ℚ, q ≤ 0 → ratTrunc q = ⌈q⌉) ∧
    (∀ (slot : InputSlot) (q : ℚ), slot.options = [] → slot.valueType = "INT" →
      resolveWidgetValue slot (some (.num (.finite q))) none =
        some (.num (.finite (ratTrunc q)))) ∧
    (∀ (slot : InputSlot) (n : JSNum), slot.options = [] → slot.valueType = "INT" →
      n.isFin = false → resolveWidgetValue slot (some (.num n)) none = none) ∧
    (∀ (slot : InputSlot) (s : String) (q : ℚ), slot.options = [] →
      slot.valueType = "INT" → trimChars s.data ≠ [] → jsParseNumber s = .finite q →
      resolveWidgetValue slot (some (.str s)) none = some (.num (.finite (ratTrunc q)))) ∧
    (∀ slot : InputSlot, slot.options = [] → slot.valueType = "INT" →
      resolveWidgetValue slot (some (.str "")) none = none) ∧
    (∀ (slot : InputSlot) (q : ℚ), slot.options = [] → slot.valueType = "FLOAT" →
      resolveWidgetValue slot (some (.num (.finite q))) none = some (.num (.finite q))) ∧
    (∀ (slot : InputSlot) (n : JSNum), slot.options = [] → slot.valueType = "FLOAT" →
      n.isFin = false → resolveWidgetValue slot (some (.num n)) none = none) ∧
    (∀ (slot : InputSlot) (s : String) (q : ℚ), slot.options = [] →
      slot.valueType = "FLOAT" → trimChars s.data ≠ [] → jsParseNumber s = .finite q →
      resolveWidgetValue slot (some (.str s)) none = some (.num (.finite q))) ∧
    (∀ slot : InputSlot, slot.options = [] → slot.valueType = "FLOAT" →
      resolveWidgetValue slot (some (.str "")) none = none) ∧
    (∀ (slot : InputSlot) (b : Bool), slot.options = [] → slot.valueType = "BOOLEAN" →
      resolveWidgetValue slot (some (.bool b)) none = some (.bool b)) ∧
    (∀ (slot : InputSlot) (s : String), slot.options = [] → slot.valueType = "BOOLEAN" →
      jsToLower s = "true" → resolveWidgetValue slot (some (.str s)) none =
        some (.bool true)) ∧
    (∀ (slot : InputSlot) (s : String), slot.options = [] → slot.valueType = "BOOLEAN" →
      jsToLower s = "false" → resolveWidgetValue slot (some (.str s)) none =
        some (.bool false)) ∧
    (∀ (slot : InputSlot) (s : String), slot.options = [] → slot.valueType = "BOOLEAN" →
      jsToLower s ≠ "true" → jsToLower s ≠ "false" →
      resolveWidgetValue slot (some (.str s)) none = none) ∧
    (∀ (slot : InputSlot) (n : JSNum), slot.options = [] → slot.valueType = "BOOLEAN" →
      resolveWidgetValue slot (some (.num n)) none = none) := by
  refine ⟨ratTrunc_of_nonneg, ratTrunc_of_nonpos, ?_, ?_, ?_, ?_, ?_, ?_, ?_, ?_, ?_,
    ?_, ?_, ?_, ?_⟩
  · intro slot q ho hv
    simp [resolveWidgetValue, jsCoalesce, resolveNumberValue, jsTrunc, JSNum.isFin, ho, hv]
  · intro slot n ho hv hf
    cases n <;> simp_all [resolveWidgetValue, jsCoalesce, resolveNumberValue, JSNum.isFin,
      ho, hv]
  · intro slot s q ho hv ht hp
    simp [resolveWidgetValue, jsCoalesce, resolveNumberValue, jsTrunc, JSNum.isFin,
      ho, hv, ht, hp]
  · intro slot ho hv
    simp [resolveWidgetValue, jsCoalesce, resolveNumberValue, ho, hv, trimChars]
  · intro slot q ho hv
    simp [resolveWidgetValue, jsCoalesce, resolveNumberValue, JSNum.isFin, ho, hv]
  · intro slot n ho hv hf
    cases n <;> simp_all [resolveWidgetValue, jsCoalesce, resolveNumberValue, JSNum.isFin,
      ho, hv]
  · intro slot s q ho hv ht hp
    simp [resolveWidgetValue, jsCoalesce, resolveNumberValue, JSNum.isFin, ho, hv, ht, hp]
  · intro slot ho hv
    simp [resolveWidgetValue, jsCoalesce, resolveNumberValue, ho, hv, trimChars]
  · intro slot b ho hv
    simp [resolveWidgetValue, jsCoalesce, ho, hv]
  · intro slot s ho hv hl
    simp [resolveWidgetValue, jsCoalesce, ho, hv, hl]
  · intro slot s ho hv hl
    have hne : jsToLower s ≠ "true" := by rw [hl]; decide
    simp [resolveWidgetValue, jsCoalesce, ho, hv, hl, hne]
  · intro slot s ho hv h1 h2
    simp [resolveWidgetValue, jsCoalesce, ho, hv, h1, h2]
  · intro slot n ho hv
    simp [resolveWidgetValue, jsCoalesce, ho, hv]

/-- Fixture: a non-enumerated FLOAT slot. -/
def exSlotFloat : InputSlot := { name := "cfg", group := "optional", valueType := "FLOAT" }

/-- Fixture: a non-enumerated BOOLEAN slot. -/
def exSlotBool : InputSlot := { name := "flag", group := "optional", valueType := "BOOLEAN" }

unseal Rat.mul Rat.add Rat.sub Rat.inv in
theorem resolve_widget_value_kinds_witness :
    ratTrunc (7/2) = ⌊(7/2 : ℚ)⌋ ∧
    ratTrunc (-(7/2)) = ⌈(-(7/2) : ℚ)⌉ ∧
    resolveWidgetValue exSlotSeed (some (.num (.finite (7/2)))) none =
      some (.num (.finite 3)) ∧
    resolveWidgetValue exSlotSeed (some (.num .nan)) none = none ∧
    resolveWidgetValue exSlotSeed (some (.str "2.5")) none = some (.num (.finite 2)) ∧
    resolveWidgetValue exSlotSeed (some (.str "")) none = none ∧
    resolveWidgetValue exSlotFloat (some (.num (.finite (7/2)))) none =
      some (.num (.finite (7/2))) ∧
    resolveWidgetValue exSlotFloat (some (.str "2.5")) none =
      some (.num (.finite (5/2))) ∧
    resolveWidgetValue exSlotBool (some (.bool true)) none = some (.bool true) ∧
    resolveWidgetValue exSlotBool (some (.str "TrUe")) none = some (.bool true) ∧
    resolveWidgetValue exSlotBool (some (.str "False")) none = some (.bool false) ∧
    resolveWidgetValue exSlotBool (some (.str "maybe")) none = none ∧
    resolveWidgetValue exSlotBool (some (.num (.finite 1))) none = none := by
  have c := resolve_widget_value_kinds
  refine ⟨c.1 (7/2) (by norm_num), c.2.1 (-(7/2)) (by norm_num), ?_, ?_, ?_, ?_, ?_, ?_,
    ?_, ?_, ?_, ?_, ?_⟩
  · exact (c.2.2.1 exSlotSeed (7/2) rfl rfl).trans (by decide)
  · exact c.2.2.2.1 exSlotSeed .nan rfl rfl rfl
  · exact (c.2.2.2.2.1 exSlotSeed "2.5" (5/2) rfl rfl (by decide) (by decide)).trans
      (by decide)
  · exact c.2.2.2.2.2.1 exSlotSeed rfl rfl
  · exact c.2.2.2.2.2.2.1 exSlotFloat (7/2) rfl rfl
  · exact c.2.2.2.2.2.2.2.2.1 exSlotFloat "2.5" (5/2) rfl rfl (by decide) (by decide)
  · exact c.2.2.2.2.2.2.2.2.2.2.1 exSlotBool true rfl rfl
  · exact c.2.2.2.2.2.2.2.2.2.2.2.1 exSlotBool "TrUe" rfl rfl (by decide)
  · exact c.2.2.2.2.2.2.2.2.2.2.2.2.1 exSlotBool "False" rfl rfl (by decide)
  · exact c.2.2.2.2.2.2.2.2.2.2.2.2.2.1 exSlotBool "maybe" rfl rfl (by decide) (by decide)
  · exact c.2.2.2.2.2.2.2.2.2.2.2.2.2.2 exSlotBool (.finite 1) rfl rfl

/-! ## C8 — warning deduplication -/

/-- Fixture: an edge naming the unknown output slot `nope` on `a1`. -/
def exEdgeNope : GraphEdge := ⟨some "a1", some "b1", some "out-nope", some "in-image"⟩

/-- C8 counterexample: two edges naming the same unknown output slot of
the same source node produce two identical warnings — the unknown-output
warning is pushed without a dedupe key, so it is not deduplicated per
`(kind, node)` as claimed. -/
theorem unknown_output_warning_not_deduped_cex :
    (buildPromptFromGraph [exNodeA, exNodeB] [exEdgeNope, exEdgeNope] exSchemas).warnings =
      ["Unknown output nope on TA (a1).", "Unknown output nope on TA (a1)."] ∧
    List.count "Unknown output nope on TA (a1)."
      (buildPromptFromGraph [exNodeA, exNodeB] [exEdgeNope, exEdgeNope] exSchemas).warnings
      = 2 := by
  constructor <;> decide

lemma missingTypeMsg_ne_missingSchemaMsg (a t b : String) :
    missingTypeMsg a ≠ missingSchemaMsg t b := by
  intro h
  have h2 := congrArg String.data h
  simp [missingTypeMsg, missingSchemaMsg, String.data_append] at h2

lemma unknownOutputMsg_ne_missingSchemaMsg (s t a t' b : String) :
    unknownOutputMsg s t a ≠ missingSchemaMsg t' b := by
  intro h
  have h2 := congrArg String.data h
  simp [unknownOutputMsg, missingSchemaMsg, String.data_append] at h2

lemma missingTypeKey_ne_missingSchemaKey (a b : String) :
    missingTypeKey a ≠ missingSchemaKey b := by
  intro h
  have h2 := congrArg String.data h
  simp [missingTypeKey, missingSchemaKey, String.data_append] at h2

lemma missingSchemaKey_inj {a b : String} (h : missingSchemaKey a = missingSchemaKey b) :
    a = b := by
  have h2 := congrArg String.data h
  simp [missingSchemaKey, String.data_append] at h2
  exact String.ext h2

/-- The deduplication invariant for one (message, key) pair: the message
occurs in the warning list exactly as often as the key has been
recorded. -/
def dedupInv (m0 k0 : String) (st : BuildState) : Prop :=
  List.count m0 st.warnings = if k0 ∈ st.schemaWarningKeys then 1 else 0

lemma dedupInv_push_hit {m0 k0 : String} {st : BuildState} (h : dedupInv m0 k0 st) :
    dedupInv m0 k0 (pushWarning st m0 (some k0)) := by
  unfold dedupInv pushWarning at *
  by_cases hk : k0 ∈ st.schemaWarningKeys
  · simp [hk, h]
  · simp only [hk, if_false, if_neg hk] at h ⊢
    simp [List.count_append, h]

lemma dedupInv_push_miss {m0 k0 m : String} {d : Option String} {st : BuildState}
    (h : dedupInv m0 k0 st) (hm : m ≠ m0) (hk : ∀ k, d = some k → k ≠ k0) :
    dedupInv m0 k0 (pushWarning st m d) := by
  unfold dedupInv pushWarning at *
  rcases d with _ | k
  · simpa [List.count_append, List.count_singleton, Ne.symm hm] using h
  · have hkk := hk k rfl
    by_cases hmem : k ∈ st.schemaWarningKeys
    · simp [hmem, h]
    · simp only [hmem, if_false, if_neg hmem]
      have : (k0 ∈ st.schemaWarningKeys ++ [k]) ↔ k0 ∈ st.schemaWarningKeys := by
        simp [List.mem_append, Ne.symm hkk]
      rw [List.count_append]
      simp [this, List.count_singleton, Ne.symm hm, h]

/-- The (message, key) dichotomy a node must satisfy so that its possible
warning pushes preserve `dedupInv m0 k0`. -/
def nodeOK (nodeSchemas : NodeSchemaMap) (m0 k0 : String) (n : GraphNode) : Prop :=
  (nodeTypeOf n = none → missingTypeMsg n.id ≠ m0 ∧ missingTypeKey n.id ≠ k0) ∧
  (∀ t, nodeTypeOf n = some t → lookupA nodeSchemas t = none →
    (missingSchemaMsg t n.id = m0 ∧ missingSchemaKey n.id = k0) ∨
    (missingSchemaMsg t n.id ≠ m0 ∧ missingSchemaKey n.id ≠ k0))

lemma dedupInv_mk (m0 k0 : String) {st st' : BuildState}
    (hw : st'.warnings = st.warnings) (hkeys : st'.schemaWarningKeys = st.schemaWarningKeys)
    (h : dedupInv m0 k0 st) : dedupInv m0 k0 st' := by
  unfold dedupInv at *
  rw [hw, hkeys]
  exact h

lemma dedupInv_processNode {nodeSchemas : NodeSchemaMap} {m0 k0 : String}
    {st : BuildState} {n : GraphNode} (hOK : nodeOK nodeSchemas m0 k0 n)
    (h : dedupInv m0 k0 st) : dedupInv m0 k0 (processNode nodeSchemas st n) := by
  have hst' : dedupInv m0 k0 { st with nodeById := insertA st.nodeById n.id n } :=
    dedupInv_mk m0 k0 rfl rfl h
  unfold processNode
  rcases h1 : nodeTypeOf n with _ | t
  · simp only [h1]
    exact dedupInv_push_miss hst' (hOK.1 h1).1
      (fun k hk => by cases hk; exact (hOK.1 h1).2)
  · simp only [h1]
    rcases h2 : lookupA nodeSchemas t with _ | sch
    · simp only [h2]
      rcases hOK.2 t h1 h2 with ⟨hm, hk⟩ | ⟨hm, hk⟩
      · subst hm; subst hk
        exact dedupInv_mk _ _ rfl rfl (dedupInv_push_hit hst')
      · exact dedupInv_mk m0 k0 rfl rfl
          (dedupInv_push_miss hst' hm (fun k hkk => by cases hkk; exact hk))
    · simp only [h2]
      exact dedupInv_mk m0 k0 rfl rfl hst'

lemma processEdge_cases (nodeSchemas : NodeSchemaMap) (st : BuildState) (e : GraphEdge) :
    ((processEdge nodeSchemas st e).warnings = st.warnings ∧
      (processEdge nodeSchemas st e).schemaWarningKeys = st.schemaWarningKeys) ∨
    (∃ srcN t, strTruthy (srcN.data.bind (·.nodeType)) = some t ∧
      lookupA nodeSchemas t = none ∧
      (∃ src, lookupA st.nodeById src = some srcN) ∧
      processEdge nodeSchemas st e =
        pushWarning st (missingSchemaMsg t srcN.id) (some (missingSchemaKey srcN.id))) ∨
    (∃ a b c, processEdge nodeSchemas st e = pushWarning st (unknownOutputMsg a b c) none) := by
  unfold processEdge
  rcases h1 : strTruthy e.source with _ | source <;> try simp only [h1]
  · exact Or.inl (by simp)
  rcases h2 : strTruthy e.target with _ | target <;> try simp only [h2]
  · exact Or.inl (by simp)
  rcases h3 : parseHandleSlotName e.sourceHandle "out-" with _ | ssn <;> try simp only [h3]
  · exact Or.inl (by simp)
  rcases h4 : parseHandleSlotName e.targetHandle "in-" with _ | tsn <;> try simp only [h4]
  · exact Or.inl (by simp)
  rcases h5 : lookupA st.nodeById source with _ | srcN <;> try simp only [h5]
  · exact Or.inl (by simp)
  rcases h6 : lookupA st.nodeById target with _ | tgtN <;> try simp only [h6]
  · exact Or.inl (by simp)
  rcases h7 : strTruthy (srcN.data.bind (·.nodeType)) with _ | t <;> try simp only [h7]
  · exact Or.inl (by simp)
  rcases h8 : lookupA nodeSchemas t with _ | sch <;> try simp only [h8]
  · exact Or.inr (Or.inl ⟨srcN, t, h7, h8, ⟨source, h5⟩, rfl⟩)
  rcases h9 : sch.outputs.findIdx? (·.name = ssn) with _ | outIdx <;> try simp only [h9]
  · exact Or.inr (Or.inr ⟨ssn, t, srcN.id, rfl⟩)
  rcases h10 : lookupA st.prompt tgtN.id with _ | tp <;> try simp only [h10]
  · exact Or.inl (by simp)
  · exact Or.inl (by simp)

lemma pushWarning_keys_mono (st : BuildState) (m : String) (d : Option String) :
    st.schemaWarningKeys ⊆ (pushWarning st m d).schemaWarningKeys := by
  rcases d with _ | k
  · exact fun x hx => hx
  · simp only [pushWarning]
    split_ifs
    · exact fun x hx => hx
    · exact fun x hx => List.mem_append.mpr (Or.inl hx)

lemma pushWarning_nodeById (st : BuildState) (m : String) (d : Option String) :
    (pushWarning st m d).nodeById = st.nodeById := by
  rcases d with _ | k
  · rfl
  · simp only [pushWarning]
    split_ifs <;> rfl

lemma processNode_nodeById (nodeSchemas : NodeSchemaMap) (st : BuildState)
    (n : GraphNode) :
    (processNode nodeSchemas st n).nodeById = insertA st.nodeById n.id n := by
  unfold processNode
  rcases h1 : nodeTypeOf n with _ | t <;> try simp only [h1]
  · rw [pushWarning_nodeById]
  · rcases h2 : lookupA nodeSchemas t with _ | sch <;> try simp only [h2]
    all_goals rw [pushWarning_nodeById]

lemma processNode_keys_mono (nodeSchemas : NodeSchemaMap) (st : BuildState)
    (n : GraphNode) :
    st.schemaWarningKeys ⊆ (processNode nodeSchemas st n).schemaWarningKeys := by
  unfold processNode
  rcases h1 : nodeTypeOf n with _ | t <;> try simp only [h1]
  · exact pushWarning_keys_mono { st with nodeById := insertA st.nodeById n.id n } _ _
  · rcases h2 : lookupA nodeSchemas t with _ | sch <;> try simp only [h2]
    · exact pushWarning_keys_mono { st with nodeById := insertA st.nodeById n.id n } _ _
    · exact fun x hx => hx

lemma processEdge_keys_mono (nodeSchemas : NodeSchemaMap) (st : BuildState)
    (e : GraphEdge) :
    st.schemaWarningKeys ⊆ (processEdge nodeSchemas st e).schemaWarningKeys := by
  rcases processEdge_cases nodeSchemas st e with ⟨_, hk⟩ | ⟨_, _, _, _, _, heq⟩ |
    ⟨_, _, _, heq⟩
  · rw [hk]; exact fun x hx => hx
  · rw [heq]; exact pushWarning_keys_mono _ _ _
  · rw [heq]; exact pushWarning_keys_mono _ _ _

lemma processEdge_nodeById (nodeSchemas : NodeSchemaMap) (st : BuildState)
    (e : GraphEdge) : (processEdge nodeSchemas st e).nodeById = st.nodeById := by
  unfold processEdge
  repeat' split
  all_goals first
    | rfl
    | (unfold pushWarning; split <;> first | rfl | (split_ifs <;> rfl))

lemma foldl_processNode_keys_mono (nodeSchemas : NodeSchemaMap)
    (ns : List GraphNode) :
    ∀ st : BuildState,
      st.schemaWarningKeys ⊆ ((ns.foldl (processNode nodeSchemas) st)).schemaWarningKeys := by
  induction ns with
  | nil => exact fun st x hx => hx
  | cons n rest ih =>
      intro st
      rw [List.foldl_cons]
      exact fun x hx => ih _ (processNode_keys_mono _ _ _ hx)

lemma foldl_processEdge_keys_mono (nodeSchemas : NodeSchemaMap)
    (es : List GraphEdge) :
    ∀ st : BuildState,
      st.schemaWarningKeys ⊆ ((es.foldl (processEdge nodeSchemas) st)).schemaWarningKeys := by
  induction es with
  | nil => exact fun st x hx => hx
  | cons e rest ih =>
      intro st
      rw [List.foldl_cons]
      exact fun x hx => ih _ (processEdge_keys_mono _ _ _ hx)

lemma foldl_processEdge_nodeById (nodeSchemas : NodeSchemaMap) (es : List GraphEdge) :
    ∀ st : BuildState,
      ((es.foldl (processEdge nodeSchemas) st)).nodeById = st.nodeById := by
  induction es with
  | nil => exact fun st => rfl
  | cons e rest ih =>
      intro st
      rw [List.foldl_cons, ih, processEdge_nodeById]

lemma lookupA_insertA_mem {α : Type _} {l : List (String × α)} {k : String} {v : α}
    {k' : String} {w : α} (h : lookupA (insertA l k v) k' = some w) :
    w = v ∨ lookupA l k' = some w := by
  rw [lookupA_insertA] at h
  by_cases hk : k' = k
  · rw [if_pos hk] at h
    exact Or.inl (Option.some.injEq _ _ ▸ h.symm)
  · rw [if_neg hk] at h
    exact Or.inr h

lemma foldl_processNode_byId (nodeSchemas : NodeSchemaMap) (ns : List GraphNode) :
    ∀ (st : BuildState) (id : String) (w : GraphNode),
      lookupA ((ns.foldl (processNode nodeSchemas) st)).nodeById id = some w →
      w ∈ ns ∨ lookupA st.nodeById id = some w := by
  induction ns with
  | nil => exact fun st id w h => Or.inr h
  | cons n rest ih =>
      intro st id w h
      rw [List.foldl_cons] at h
      rcases ih _ id w h with hmem | hlk
      · exact Or.inl (List.mem_cons_of_mem _ hmem)
      · rw [processNode_nodeById] at hlk
        rcases lookupA_insertA_mem hlk with rfl | hrest
        · exact Or.inl (List.mem_cons_self _ _)
        · exact Or.inr hrest

lemma processNode_adds_schema_key (nodeSchemas : NodeSchemaMap) (st : BuildState)
    (n : GraphNode) (t : String) (h1 : nodeTypeOf n = some t)
    (h2 : lookupA nodeSchemas t = none) :
    missingSchemaKey n.id ∈ (processNode nodeSchemas st n).schemaWarningKeys := by
  unfold processNode
  simp only [h1, h2]
  unfold pushWarning
  simp only
  split_ifs with hmem
  · exact hmem
  · exact List.mem_append.mpr (Or.inr (List.mem_singleton.mpr rfl))

lemma dedupInv_processEdge {nodeSchemas : NodeSchemaMap} {m0 k0 : String}
    {st : BuildState} {e : GraphEdge}
    (hById : ∀ id w, lookupA st.nodeById id = some w →
      ∀ t, strTruthy (w.data.bind (·.nodeType)) = some t → lookupA nodeSchemas t = none →
        (missingSchemaMsg t w.id = m0 ∧ missingSchemaKey w.id = k0) ∨
        (missingSchemaMsg t w.id ≠ m0 ∧ missingSchemaKey w.id ≠ k0))
    (hum : ∀ a b c, unknownOutputMsg a b c ≠ m0)
    (h : dedupInv m0 k0 st) : dedupInv m0 k0 (processEdge nodeSchemas st e) := by
  rcases processEdge_cases nodeSchemas st e with ⟨hw, hk⟩ |
    ⟨srcN, t, h7, h8, ⟨src, h5⟩, heq⟩ | ⟨a, b, c, heq⟩
  · exact dedupInv_mk _ _ hw hk h
  · rw [heq]
    rcases hById src srcN h5 t h7 h8 with ⟨hm, hk2⟩ | ⟨hm, hk2⟩
    · subst hm; subst hk2; exact dedupInv_push_hit h
    · exact dedupInv_push_miss h hm (fun k hkk => by cases hkk; exact hk2)
  · rw [heq]
    exact dedupInv_push_miss h (hum a b c) (fun k hkk => by cases hkk)

lemma dedupInv_foldl_processNode {nodeSchemas : NodeSchemaMap} {m0 k0 : String}
    (ns : List GraphNode) :
    ∀ st : BuildState, (∀ n ∈ ns, nodeOK nodeSchemas m0 k0 n) → dedupInv m0 k0 st →
      dedupInv m0 k0 (ns.foldl (processNode nodeSchemas) st) := by
  induction ns with
  | nil => exact fun st _ h => h
  | cons n rest ih =>
      intro st hOK h
      rw [List.foldl_cons]
      exact ih _ (fun x hx => hOK x (List.mem_cons_of_mem _ hx))
        (dedupInv_processNode (hOK n (List.mem_cons_self _ _)) h)

lemma dedupInv_foldl_processEdge {nodeSchemas : NodeSchemaMap} {m0 k0 : String}
    (es : List GraphEdge) :
    ∀ st : BuildState,
      (∀ id w, lookupA st.nodeById id = some w →
        ∀ t, strTruthy (w.data.bind (·.nodeType)) = some t →
          lookupA nodeSchemas t = none →
          (missingSchemaMsg t w.id = m0 ∧ missingSchemaKey w.id = k0) ∨
          (missingSchemaMsg t w.id ≠ m0 ∧ missingSchemaKey w.id ≠ k0)) →
      (∀ a b c, unknownOutputMsg a b c ≠ m0) →
      dedupInv m0 k0 st → dedupInv m0 k0 (es.foldl (processEdge nodeSchemas) st) := by
  induction es with
  | nil => exact fun st _ _ h => h
  | cons e rest ih =>
      intro st hById hum h
      rw [List.foldl_cons]
      have hById' : ∀ id w, lookupA (processEdge nodeSchemas st e).nodeById id = some w →
          ∀ t, strTruthy (w.data.bind (·.nodeType)) = some t →
            lookupA nodeSchemas t = none →
            (missingSchemaMsg t w.id = m0 ∧ missingSchemaKey w.id = k0) ∨
            (missingSchemaMsg t w.id ≠ m0 ∧ missingSchemaKey w.id ≠ k0) := by
        rw [processEdge_nodeById]
        exact hById
      exact ih _ hById' hum (dedupInv_processEdge hById hum h)

lemma missingTypeMsg_inj {a b : String} (h : missingTypeMsg a = missingTypeMsg b) :
    a = b := by
  have h2 := congrArg String.data h
  simp [missingTypeMsg, String.data_append] at h2
  exact String.ext h2

lemma missingTypeKey_inj {a b : String} (h : missingTypeKey a = missingTypeKey b) :
    a = b := by
  have h2 := congrArg String.data h
  simp [missingTypeKey, String.data_append] at h2
  exact String.ext h2

lemma unknownOutputMsg_ne_missingTypeMsg (s t a b : String) :
    unknownOutputMsg s t a ≠ missingTypeMsg b := by
  intro h
  have h2 := congrArg String.data h
  simp [unknownOutputMsg, missingTypeMsg, String.data_append] at h2

lemma processNode_adds_type_key (nodeSchemas : NodeSchemaMap) (st : BuildState)
    (n : GraphNode) (h1 : nodeTypeOf n = none) :
    missingTypeKey n.id ∈ (processNode nodeSchemas st n).schemaWarningKeys := by
  unfold processNode
  simp only [h1]
  unfold pushWarning
  simp only
  split_ifs with hmem
  · exact hmem
  · exact List.mem_append.mpr (Or.inr (List.mem_singleton.mpr rfl))

/-- The (message, key) dichotomy a node must satisfy so that its possible
warning pushes preserve `dedupInv m0 k0` when the tracked pair is a
missing-type warning. -/
def nodeOKt (nodeSchemas : NodeSchemaMap) (m0 k0 : String) (n : GraphNode) : Prop :=
  (nodeTypeOf n = none →
    (missingTypeMsg n.id = m0 ∧ missingTypeKey n.id = k0) ∨
    (missingTypeMsg n.id ≠ m0 ∧ missingTypeKey n.id ≠ k0)) ∧
  (∀ t, nodeTypeOf n = some t → lookupA nodeSchemas t = none →
    missingSchemaMsg t n.id ≠ m0 ∧ missingSchemaKey n.id ≠ k0)

lemma dedupInv_processNode_t {nodeSchemas : NodeSchemaMap} {m0 k0 : String}
    {st : BuildState} {n : GraphNode} (hOK : nodeOKt nodeSchemas m0 k0 n)
    (h : dedupInv m0 k0 st) : dedupInv m0 k0 (processNode nodeSchemas st n) := by
  have hst' : dedupInv m0 k0 { st with nodeById := insertA st.nodeById n.id n } :=
    dedupInv_mk m0 k0 rfl rfl h
  unfold processNode
  rcases h1 : nodeTypeOf n with _ | t
  · simp only [h1]
    rcases hOK.1 h1 with ⟨hm, hk⟩ | ⟨hm, hk⟩
    · subst hm
      subst hk
      exact dedupInv_push_hit hst'
    · exact dedupInv_push_miss hst' hm (fun k hkk => by cases hkk; exact hk)
  · simp only [h1]
    rcases h2 : lookupA nodeSchemas t with _ | sch
    · simp only [h2]
      obtain ⟨hm, hk⟩ := hOK.2 t h1 h2
      exact dedupInv_mk m0 k0 rfl rfl
        (dedupInv_push_miss hst' hm (fun k hkk => by cases hkk; exact hk))
    · simp only [h2]
      exact dedupInv_mk m0 k0 rfl rfl hst'

lemma dedupInv_foldl_processNode_t {nodeSchemas : NodeSchemaMap} {m0 k0 : String}
    (ns : List GraphNode) :
    ∀ st : BuildState, (∀ n ∈ ns, nodeOKt nodeSchemas m0 k0 n) → dedupInv m0 k0 st →
      dedupInv m0 k0 (ns.foldl (processNode nodeSchemas) st) := by
  induction ns with
  | nil => exact fun st _ h => h
  | cons n rest ih =>
      intro st hOK h
      rw [List.foldl_cons]
      exact ih _ (fun x hx => hOK x (List.mem_cons_of_mem _ hx))
        (dedupInv_processNode_t (hOK n (List.mem_cons_self _ _)) h)

/-- C8 amended: the missing-type and missing-schema warnings are
deduplicated per node — a typeless node yields exactly one missing-type
warning however many entries share its id, and a node whose type lacks a
schema yields exactly one missing-schema warning, however many edges
reference it — but the unknown-output warning carries no dedupe key:
every edge that names an unknown output slot appends its own copy of the
warning. -/
theorem warning_dedup_amended :
    (∀ (nodes : List GraphNode) (edges : List GraphEdge) (nodeSchemas : NodeSchemaMap)
        (n0 : GraphNode),
      n0 ∈ nodes → nodeTypeOf n0 = none →
      List.count (missingTypeMsg n0.id)
        (buildPromptFromGraph nodes edges nodeSchemas).warnings = 1) ∧
    (∀ (nodes : List GraphNode) (edges : List GraphEdge) (nodeSchemas : NodeSchemaMap)
        (n0 : GraphNode) (t0 : String),
      n0 ∈ nodes → (nodes.map GraphNode.id).Nodup →
      nodeTypeOf n0 = some t0 → lookupA nodeSchemas t0 = none →
      (∀ n' ∈ nodes, ∀ t', nodeTypeOf n' = some t' →
        missingSchemaMsg t' n'.id = missingSchemaMsg t0 n0.id → n'.id = n0.id) →
      List.count (missingSchemaMsg t0 n0.id)
        (buildPromptFromGraph nodes edges nodeSchemas).warnings = 1) ∧
    (∀ (nodeSchemas : NodeSchemaMap) (st : BuildState) (edge : GraphEdge)
        (src tgt ssn tsn : String) (srcN tgtN : GraphNode) (t : String) (sch : NodeSchema),
      strTruthy edge.source = some src → strTruthy edge.target = some tgt →
      parseHandleSlotName edge.sourceHandle "out-" = some ssn →
      parseHandleSlotName edge.targetHandle "in-" = some tsn →
      lookupA st.nodeById src = some srcN → lookupA st.nodeById tgt = some tgtN →
      strTruthy (srcN.data.bind (·.nodeType)) = some t →
      lookupA nodeSchemas t = some sch →
      sch.outputs.findIdx? (·.name = ssn) = none →
      (processEdge nodeSchemas st edge).warnings =
        st.warnings ++ [unknownOutputMsg ssn t srcN.id]) := by
  refine ⟨?_, ?_, ?_⟩
  · intro nodes edges nodeSchemas n0 hmem ht
    have hOK : ∀ n ∈ nodes,
        nodeOKt nodeSchemas (missingTypeMsg n0.id) (missingTypeKey n0.id) n := by
      intro n _
      constructor
      · intro _
        by_cases hid : n.id = n0.id
        · exact Or.inl ⟨by rw [hid], by rw [hid]⟩
        · exact Or.inr ⟨fun hc => hid (missingTypeMsg_inj hc),
            fun hc => hid (missingTypeKey_inj hc)⟩
      · intro t' _ _
        exact ⟨Ne.symm (missingTypeMsg_ne_missingSchemaMsg n0.id t' n.id),
          fun hc => missingTypeKey_ne_missingSchemaKey n0.id n.id hc.symm⟩
    have hById : ∀ id w,
        lookupA ((nodes.foldl (processNode nodeSchemas) ⟨[], [], [], [], []⟩)).nodeById id
          = some w →
        ∀ t', strTruthy (w.data.bind (·.nodeType)) = some t' →
          lookupA nodeSchemas t' = none →
          (missingSchemaMsg t' w.id = missingTypeMsg n0.id ∧
            missingSchemaKey w.id = missingTypeKey n0.id) ∨
          (missingSchemaMsg t' w.id ≠ missingTypeMsg n0.id ∧
            missingSchemaKey w.id ≠ missingTypeKey n0.id) := by
      intro id w _ t' _ _
      exact Or.inr ⟨Ne.symm (missingTypeMsg_ne_missingSchemaMsg n0.id t' w.id),
        fun hc => missingTypeKey_ne_missingSchemaKey n0.id w.id hc.symm⟩
    have hum : ∀ a b c, unknownOutputMsg a b c ≠ missingTypeMsg n0.id :=
      fun a b c => unknownOutputMsg_ne_missingTypeMsg a b c n0.id
    have hinv0 : dedupInv (missingTypeMsg n0.id) (missingTypeKey n0.id)
        ⟨[], [], [], [], []⟩ := by
      unfold dedupInv
      simp
    have hinv1 := dedupInv_foldl_processNode_t nodes ⟨[], [], [], [], []⟩ hOK hinv0
    have hinv2 := dedupInv_foldl_processEdge edges _ hById hum hinv1
    obtain ⟨pre, post, hsplit⟩ := List.append_of_mem hmem
    have hk1 : missingTypeKey n0.id ∈
        ((nodes.foldl (processNode nodeSchemas) ⟨[], [], [], [], []⟩)).schemaWarningKeys := by
      rw [hsplit, List.foldl_append, List.foldl_cons]
      exact foldl_processNode_keys_mono nodeSchemas post _
        (processNode_adds_type_key nodeSchemas _ n0 ht)
    have hk2 : missingTypeKey n0.id ∈
        ((edges.foldl (processEdge nodeSchemas)
          (nodes.foldl (processNode nodeSchemas) ⟨[], [], [], [], []⟩))).schemaWarningKeys :=
      foldl_processEdge_keys_mono nodeSchemas edges _ hk1
    unfold dedupInv at hinv2
    simp only [buildPromptFromGraph]
    rw [hinv2, if_pos hk2]
  · intro nodes edges nodeSchemas n0 t0 hmem hids ht hs hinj
    have hOK : ∀ n ∈ nodes,
        nodeOK nodeSchemas (missingSchemaMsg t0 n0.id) (missingSchemaKey n0.id) n := by
      intro n hn
      constructor
      · intro _
        exact ⟨missingTypeMsg_ne_missingSchemaMsg _ _ _,
          missingTypeKey_ne_missingSchemaKey _ _⟩
      · intro t' ht' hs'
        by_cases hmsg : missingSchemaMsg t' n.id = missingSchemaMsg t0 n0.id
        · left
          have hid : n.id = n0.id := hinj n hn t' ht' hmsg
          have hnn : n = n0 := List.inj_on_of_nodup_map hids hn hmem hid
          subst hnn
          exact ⟨hmsg, rfl⟩
        · right
          refine ⟨hmsg, fun hkeq => ?_⟩
          have hid : n.id = n0.id := missingSchemaKey_inj hkeq
          have hnn : n = n0 := List.inj_on_of_nodup_map hids hn hmem hid
          subst hnn
          rw [ht'] at ht
          cases ht
          exact hmsg rfl
    have hum : ∀ a b c, unknownOutputMsg a b c ≠ missingSchemaMsg t0 n0.id :=
      fun a b c => unknownOutputMsg_ne_missingSchemaMsg a b c t0 n0.id
    have hinv0 : dedupInv (missingSchemaMsg t0 n0.id) (missingSchemaKey n0.id)
        ⟨[], [], [], [], []⟩ := by
      unfold dedupInv
      simp
    have hinv1 := dedupInv_foldl_processNode nodes ⟨[], [], [], [], []⟩ hOK hinv0
    have hById : ∀ id w,
        lookupA ((nodes.foldl (processNode nodeSchemas) ⟨[], [], [], [], []⟩)).nodeById id
          = some w →
        ∀ t', strTruthy (w.data.bind (·.nodeType)) = some t' →
          lookupA nodeSchemas t' = none →
          (missingSchemaMsg t' w.id = missingSchemaMsg t0 n0.id ∧
            missingSchemaKey w.id = missingSchemaKey n0.id) ∨
          (missingSchemaMsg t' w.id ≠ missingSchemaMsg t0 n0.id ∧
            missingSchemaKey w.id ≠ missingSchemaKey n0.id) := by
      intro id w hw t' ht' hs'
      rcases foldl_processNode_byId nodeSchemas nodes _ id w hw with hwmem | hnone
      · exact (hOK w hwmem).2 t' ht' hs'
      · simp [lookupA] at hnone
    have hinv2 := dedupInv_foldl_processEdge edges _ hById hum hinv1
    obtain ⟨pre, post, hsplit⟩ := List.append_of_mem hmem
    have hk1 : missingSchemaKey n0.id ∈
        ((nodes.foldl (processNode nodeSchemas) ⟨[], [], [], [], []⟩)).schemaWarningKeys := by
      rw [hsplit, List.foldl_append, List.foldl_cons]
      exact foldl_processNode_keys_mono nodeSchemas post _
        (processNode_adds_schema_key nodeSchemas _ n0 t0 ht hs)
    have hk2 : missingSchemaKey n0.id ∈
        ((edges.foldl (processEdge nodeSchemas)
          (nodes.foldl (processNode nodeSchemas) ⟨[], [], [], [], []⟩))).schemaWarningKeys :=
      foldl_processEdge_keys_mono nodeSchemas edges _ hk1
    unfold dedupInv at hinv2
    simp only [buildPromptFromGraph]
    rw [hinv2, if_pos hk2]
  · intro nodeSchemas st edge src tgt ssn tsn srcN tgtN t sch h1 h2 h3 h4 h5 h6 h7 h8 h9
    unfold processEdge
    simp only [h1, h2, h3, h4, h5, h6, h7, h8, h9]
    rfl

/-- Fixture: a node whose type `TX` has no schema. -/
def exNodeX : GraphNode := ⟨"x1", some { nodeType := some "TX" }⟩

/-- Fixture: an edge out of the schema-less node `x1`. -/
def exEdgeX : GraphEdge := ⟨some "x1", some "b1", some "out-OUT", some "in-image"⟩

/-- Fixture: the compiler state after phase 1 on the two-node graph. -/
def exStateAB : BuildState :=
  [exNodeA, exNodeB].foldl (processNode exSchemas) ⟨[], [], [], [], []⟩

/-- Fixture: a node with no data at all, hence no type. -/
def exNodeZ : GraphNode := ⟨"z1", none⟩

theorem warning_dedup_amended_witness :
    List.count (missingTypeMsg "z1")
      (buildPromptFromGraph [exNodeZ, exNodeZ, exNodeA] [] exSchemas).warnings = 1 ∧
    List.count (missingSchemaMsg "TX" "x1")
      (buildPromptFromGraph [exNodeA, exNodeX, exNodeB] [exEdgeX, exEdgeX, exEdgeX]
        exSchemas).warnings = 1 ∧
    (processEdge exSchemas exStateAB exEdgeNope).warnings =
      exStateAB.warnings ++ [unknownOutputMsg "nope" "TA" "a1"] := by
  refine ⟨?_, ?_, ?_⟩
  · exact warning_dedup_amended.1 [exNodeZ, exNodeZ, exNodeA] [] exSchemas exNodeZ
      (by decide) (by decide)
  · refine warning_dedup_amended.2.1 [exNodeA, exNodeX, exNodeB] [exEdgeX, exEdgeX, exEdgeX]
      exSchemas exNodeX "TX" (by decide) (by decide) (by decide) (by decide) ?_
    intro n' hn' t' ht' hmsg
    fin_cases hn'
    · have hta : nodeTypeOf exNodeA = some "TA" := by decide
      rw [hta] at ht'
      injection ht' with h
      subst h
      revert hmsg
      decide
    · rfl
    · have htb : nodeTypeOf exNodeB = some "TB" := by decide
      rw [htb] at ht'
      injection ht' with h
      subst h
      revert hmsg
      decide
  · exact warning_dedup_amended.2.2 exSchemas exStateAB exEdgeNope "a1" "b1" "nope" "image"
      exNodeA exNodeB "TA" exSchemaA (by decide) (by decide) (by decide) (by decide)
      (by decide) (by decide) (by decide) (by decide) (by decide)

/-! ## `control-after-generate.ts` — the control-field engine

`Math.random()` is modelled by an explicit stream `rand : ℕ → ℚ` of
draws together with a counter threaded through the engine: each
execution of a `Math.random()` call site consumes the next draw. -/

/-- The recognised control modes. -/
def CONTROL_AFTER_GENERATE_OPTIONS : List String :=
  ["fixed", "increment", "decrement", "randomize"]

/-- The default control mode. -/
def DEFAULT_CONTROL_VALUE : String := "randomize"

/-- Conventional seed-like slot names that are control-eligible without an
explicit flag. -/
def CONTROL_FALLBACK_NAMES : List String := ["seed", "noise_seed"]

/-- The symmetric safety range for randomized bounds. -/
def MAX_RANDOM_RANGE : ℚ := 1125899906842624

/-- `normalizeControlValue`: any value outside the recognised options
falls back to the default. -/
def normalizeControlValue (value : Option String) : String :=
  match value with
  | some v => if v ∈ CONTROL_AFTER_GENERATE_OPTIONS then v else DEFAULT_CONTROL_VALUE
  | none => DEFAULT_CONTROL_VALUE

/-- `isSupportedControlWidget`. -/
def isSupportedControlWidget (widgetSpec : WidgetSpec) : Bool :=
  widgetSpec.kind = "number" ∨ widgetSpec.kind = "select"

/-- `isControlAfterGenerateEnabled`. -/
def isControlAfterGenerateEnabled (slot : InputSlot) : Bool :=
  if ¬ slot.supportsWidget ∨ slot.forceInput then false
  else
    match slot.config.bind (·.control_after_generate) with
    | some (.bool true) => true
    | some (.str _) => true
    | _ => decide (slot.name ∈ CONTROL_FALLBACK_NAMES)

/-- `buildControlDefaults`. -/
def buildControlDefaults (schema : Option NodeSchema) : List (String × String) :=
  match schema with
  | none => []
  | some schema =>
      schema.inputs.foldl
        (fun values input =>
          if ¬ isControlAfterGenerateEnabled input then values
          else
            match getWidgetSpec input with
            | none => values
            | some spec =>
                if ¬ isSupportedControlWidget spec then values
                else insertA values input.name DEFAULT_CONTROL_VALUE)
        []

/-- `resolveNumericValue`: coerce the raw value to a finite number,
falling back to the supplied default, truncating for integer slots. -/
def resolveNumericValue (value : Option WidgetValue) (fallback : JSNum)
    (isInteger : Bool) : JSNum :=
  let resolved : JSNum :=
    match value with
    | some (.num n) => if n.isFin then n else fallback
    | some (.str s) =>
        let parsed := jsParseNumber s
        if parsed.isFin then parsed else fallback
    | _ => fallback
  if isInteger then jsTrunc resolved else resolved

/-- `resolveNumberBounds`: declared bounds with fallback, inversion swap,
and clamping into the safety range. -/
def resolveNumberBounds (slot : InputSlot) (fallback : JSNum) (step : ℚ) :
    JSNum × JSNum :=
  let mn0 : JSNum :=
    match slot.config.bind (·.min) with
    | some (.finite q) => .finite q
    | _ => fallback
  let mx0 : JSNum :=
    match slot.config.bind (·.max) with
    | some (.finite q) => .finite q
    | _ => JSNum.add mn0 (.finite step)
  let swapped := if JSNum.lt mx0 mn0 then (mx0, mn0) else (mn0, mx0)
  let mn1 := JSNum.max2 (.finite (-MAX_RANDOM_RANGE)) swapped.1
  let mx1 := JSNum.min2 (.finite MAX_RANDOM_RANGE) swapped.2
  let mx2 := if JSNum.lt mx1 mn1 then mn1 else mx1
  (mn1, mx2)

/-- `resolveNumberStep`: the declared step's absolute value, `1` when it
is absent, non-finite or zero. -/
def resolveNumberStep (slot : InputSlot) : ℚ :=
  let step : ℚ :=
    match slot.config.bind (·.step) with
    | some (.finite q) => q
    | _ => 1
  if step = 0 then 1 else |step|

/-- The `typeof defaultValue === "number"` fallback of
`applyNumberControl`. -/
def widgetNumDefault (widgetSpec : WidgetSpec) : JSNum :=
  match widgetSpec.defaultValue with
  | some (.num n) => n
  | _ => .finite 0

/-- `applyNumberControl`, with the random stream and counter made
explicit; returns the next value (or `none` for `fixed`) and the new
draw counter. -/
def applyNumberControl (rand : ℕ → ℚ) (k : ℕ) (controlValue : String)
    (slot : InputSlot) (widgetSpec : WidgetSpec) (rawValue : Option WidgetValue) :
    Option JSNum × ℕ :=
  if controlValue = "fixed" then (none, k)
  else
    let isInteger := slot.valueType = "INT"
    let defaultValue : JSNum := widgetNumDefault widgetSpec
    let step := resolveNumberStep slot
    let bounds := resolveNumberBounds slot defaultValue step
    let current := resolveNumericValue rawValue defaultValue isInteger
    let nextK : JSNum × ℕ :=
      if controlValue = "increment" then (JSNum.add current (.finite step), k)
      else if controlValue = "decrement" then (JSNum.sub current (.finite step), k)
      else if controlValue = "randomize" then
        let range := JSNum.div (JSNum.sub bounds.2 bounds.1) (.finite step)
        if JSNum.lt (.finite 0) range then
          (JSNum.add (JSNum.mul (jsFloor (JSNum.mul (.finite (rand k)) range))
            (.finite step)) bounds.1, k + 1)
        else (JSNum.add (JSNum.mul (.finite 0) (.finite step)) bounds.1, k)
      else (current, k)
    let next1 := if JSNum.lt nextK.1 bounds.1 then bounds.1 else nextK.1
    let next2 := if JSNum.lt bounds.2 next1 then bounds.2 else next1
    (some (if isInteger then jsTrunc next2 else next2), nextK.2)

/-- `applySelectControl`, with the random stream and counter explicit. -/
def applySelectControl (rand : ℕ → ℚ) (k : ℕ) (controlValue : String)
    (widgetSpec : WidgetSpec) (rawValue : Option WidgetValue) :
    Option String × ℕ :=
  if controlValue = "fixed" then (none, k)
  else
    let options := widgetSpec.options.getD []
    if options.length = 0 then (none, k)
    else
      let fallback :=
        match widgetSpec.defaultValue with
        | some (.str s) => s
        | _ => options.headD ""
      let current :=
        match rawValue with
        | some (.str s) => s
        | _ => fallback
      let index0 : ℤ :=
        match options.findIdx? (· = current) with
        | some i => (i : ℤ)
        | none => 0
      let indexK : ℤ × ℕ :=
        if controlValue = "increment" then (index0 + 1, k)
        else if controlValue = "decrement" then (index0 - 1, k)
        else if controlValue = "randomize" then
          (ratFloor (rand k * options.length), k + 1)
        else (index0, k)
      let index := max 0 (min ((options.length : ℤ) - 1) indexK.1)
      (some (options.getD index.toNat ""), indexK.2)

/-- The per-node loop locals of `applyControlAfterGenerate`. -/
structure SlotLoopState where
  nextWidgetValues : Option (List (String × WidgetValue))
  executed : Option (List String)
  k : ℕ
deriving DecidableEq, Repr

/-- The body of the per-slot loop of `applyControlAfterGenerate`:
idempotency gate first, then widget dispatch, then the copy-on-write
`setWidgetValue`. -/
def controlSlotStep (rand : ℕ → ℚ) (mode : String) (nodeId : String)
    (widgetValues : List (String × WidgetValue)) (controlValues : List (String × String))
    (st : SlotLoopState) (slot : InputSlot) : SlotLoopState :=
  if ¬ isControlAfterGenerateEnabled slot then st
  else
    let controlKey := nodeId ++ ":" ++ slot.name
    let gate : Bool :=
      decide (mode = "before") &&
        (match st.executed with
          | some ex => decide (controlKey ∉ ex)
          | none => false)
    if gate then
      { st with executed := st.executed.map (fun ex => ex ++ [controlKey]) }
    else
      match getWidgetSpec slot with
      | none => st
      | some widgetSpec =>
          if ¬ isSupportedControlWidget widgetSpec then st
          else
            let controlValue := normalizeControlValue (lookupA controlValues slot.name)
            let rawValue := lookupA widgetValues slot.name
            let nextVK : Option WidgetValue × ℕ :=
              if widgetSpec.kind = "number" then
                let r := applyNumberControl rand st.k controlValue slot widgetSpec rawValue
                (r.1.map .num, r.2)
              else if widgetSpec.kind = "select" then
                let r := applySelectControl rand st.k controlValue widgetSpec rawValue
                (r.1.map .str, r.2)
              else (none, st.k)
            match nextVK.1 with
            | none => { st with k := nextVK.2 }
            | some nv =>
                if (match rawValue with
                  | some rv => decide (nv = rv)
                  | none => false) = true then
                  { st with k := nextVK.2 }
                else
                  let base := st.nextWidgetValues.getD widgetValues
                  let nwv := some (insertA base slot.name nv)
                  { st with nextWidgetValues := nwv, k := nextVK.2 }

/-- The accumulated locals of the node loop. -/
structure EngineState where
  nextNodes : Option (List GraphNode)
  executed : Option (List String)
  k : ℕ
deriving DecidableEq, Repr

/-- One iteration of the `forEach` node loop: run the slot loop, and on a
change rebuild the node into a fresh copy of the node array.  (The node's
`data` is present whenever its node type is truthy; the impossible
`none` case is a no-change.) -/
def processControlNode (rand : ℕ → ℚ) (nodeSchemas : NodeSchemaMap) (mode : String)
    (nodes : List GraphNode) (st : EngineState) (idxNode : ℕ × GraphNode) : EngineState :=
  let node := idxNode.2
  match nodeTypeOf node with
  | none => st
  | some nodeType =>
      match lookupA nodeSchemas nodeType with
      | none => st
      | some schema =>
          let widgetValues := (node.data.bind (·.widgetValues)).getD []
          let controlValues := (node.data.bind (·.widgetControlValues)).getD []
          let slotSt := schema.inputs.foldl
            (controlSlotStep rand mode node.id widgetValues controlValues)
            ⟨none, st.executed, st.k⟩
          match slotSt.nextWidgetValues with
          | none => { st with executed := slotSt.executed, k := slotSt.k }
          | some nwv =>
              match node.data with
              | none => { st with executed := slotSt.executed, k := slotSt.k }
              | some d =>
                  let nextNode : GraphNode :=
                    { node with data := some { d with widgetValues := some nwv } }
                  let cur := st.nextNodes.getD nodes
                  let nn := some (cur.set idxNode.1 nextNode)
                  { st with nextNodes := nn, executed := slotSt.executed, k := slotSt.k }

/-- The engine result: the (possibly fresh) node collection, the mutation
flag, the final idempotency set, and the number of random draws used. -/
structure CAGResult where
  nodes : List GraphNode
  didMutate : Bool
  executedControls : Option (List String)
  draws : ℕ
deriving DecidableEq, Repr

/-- `applyControlAfterGenerate`. -/
def applyControlAfterGenerate (rand : ℕ → ℚ) (nodes : List GraphNode)
    (nodeSchemas : NodeSchemaMap) (mode : String)
    (executedControls : Option (List String)) : CAGResult :=
  let final := nodes.enum.foldl (processControlNode rand nodeSchemas mode nodes)
    ⟨none, executedControls, 0⟩
  ⟨final.nextNodes.getD nodes, final.nextNodes.isSome, final.executed, final.k⟩

/-- Fixture: declared bounds `min 0, max 10, step 2`. -/
def exStep2Config : SlotConfig :=
  { min := some (.finite 0), max := some (.finite 10), step := some (.finite 2) }

/-- Fixture: an INT slot with step 2. -/
def exSlotStep2 : InputSlot :=
  { name := "steps", group := "required", valueType := "INT",
    config := some exStep2Config, widgetSpec := some exSeedSpec }

unseal Rat.mul Rat.add Rat.sub Rat.inv in
example :
    applyNumberControl (fun _ => 0) 0 "increment" exSlotStep2 exSeedSpec
      (some (.num (.finite 5))) = (some (.finite 7), 0) ∧
    applyNumberControl (fun _ => 0) 0 "increment" exSlotStep2 exSeedSpec
      (some (.num (.finite 9))) = (some (.finite 10), 0) ∧
    applyNumberControl (fun _ => 1/2) 3 "randomize" exSlotSeed exSeedSpec
      (some (.num (.finite 4))) = (some (.finite 5), 4) ∧
    applyNumberControl (fun _ => 0) 0 "decrement" exSlotStep2 exSeedSpec
      (some (.num (.finite 1))) = (some (.finite 0), 0) := by decide

/-! ## C4 — increment, decrement, clamp and truncation -/

/-- Clamping into `[mn, mx]`, as the spec words it. -/
def clampQ (mn mx x : ℚ) : ℚ := if x < mn then mn else if mx < x then mx else x

/-- Truncation toward zero applied only to INT-declared slots, as the
spec words it. -/
def truncIfInt (slot : InputSlot) (x : ℚ) : ℚ :=
  if slot.valueType = "INT" then (ratTrunc x : ℚ) else x

lemma lt_fix_le (x y : JSNum) (mn mx : ℚ)
    (h : (x, if JSNum.lt y x then x else y) = (.finite mn, .finite mx)) : mn ≤ mx := by
  obtain ⟨h1, h2⟩ := Prod.mk.injEq .. ▸ h
  by_cases hlt : JSNum.lt y x
  · rw [if_pos hlt, h1] at h2
    cases h2
    exact le_refl _
  · rw [if_neg hlt] at h2
    rw [h1] at hlt
    rw [h2] at hlt
    simp only [JSNum.lt, decide_eq_true_eq] at hlt
    exact not_lt.mp hlt

lemma resolveNumberBounds_le (slot : InputSlot) (fb : JSNum) (s : ℚ) (mn mx : ℚ)
    (h : resolveNumberBounds slot fb s = (.finite mn, .finite mx)) : mn ≤ mx := by
  unfold resolveNumberBounds at h
  exact lt_fix_le _ _ _ _ h

lemma clamp_steps_eq (mn mx x : ℚ) (hle : mn ≤ mx) :
    (if JSNum.lt (.finite x) (.finite mn) = true then (.finite mn : JSNum)
      else .finite x) = .finite (if x < mn then mn else x) ∧
    clampQ mn mx x = (if mx < (if x < mn then mn else x) then mx
      else (if x < mn then mn else x)) := by
  constructor
  · by_cases hx : x < mn
    · simp [JSNum.lt, hx]
    · simp [JSNum.lt, hx]
  · unfold clampQ
    by_cases hx : x < mn
    · rw [if_pos hx, if_pos hx, if_neg (not_lt.mpr hle)]
    · rw [if_neg hx, if_neg hx]

lemma ratTrunc_intCast (n : ℤ) : ratTrunc (n : ℚ) = n := by
  rw [ratTrunc]
  simp [Rat.num_intCast, Rat.den_intCast, Int.tdiv_one]

lemma jsnum_add_finite (a b : ℚ) :
    JSNum.add (.finite a) (.finite b) = .finite (a + b) := rfl

lemma jsnum_sub_finite (a b : ℚ) :
    JSNum.sub (.finite a) (.finite b) = .finite (a - b) := by
  show JSNum.add (.finite a) (JSNum.neg (.finite b)) = .finite (a - b)
  simp [JSNum.add, JSNum.neg, sub_eq_add_neg]

lemma clamp_code_eq (mn mx x : ℚ) (hle : mn ≤ mx) :
    (if JSNum.lt (.finite mx)
        (if JSNum.lt (.finite x) (.finite mn) then (.finite mn : JSNum) else .finite x)
      then (.finite mx : JSNum)
      else (if JSNum.lt (.finite x) (.finite mn) then (.finite mn : JSNum) else .finite x)) =
    .finite (clampQ mn mx x) := by
  by_cases hx : x < mn
  · have h1 : JSNum.lt (.finite x) (.finite mn) = true := by
      simp [JSNum.lt, hx]
    rw [h1]
    simp only [if_true]
    have h2 : JSNum.lt (.finite mx) (.finite mn) = false := by
      simp [JSNum.lt, not_lt.mpr hle]
    rw [h2]
    simp only [Bool.false_eq_true, if_false]
    unfold clampQ
    rw [if_pos hx]
  · have h1 : JSNum.lt (.finite x) (.finite mn) = false := by
      simp [JSNum.lt, hx]
    rw [h1]
    simp only [Bool.false_eq_true, if_false]
    unfold clampQ
    rw [if_neg hx]
    by_cases h2 : mx < x
    · have h3 : JSNum.lt (.finite mx) (.finite x) = true := by simp [JSNum.lt, h2]
      rw [h3, if_pos h2]
      simp
    · have h3 : JSNum.lt (.finite mx) (.finite x) = false := by simp [JSNum.lt, h2]
      rw [h3, if_neg h2]
      simp

lemma applyNumberControl_increment (rand : ℕ → ℚ) (k : ℕ) (slot : InputSlot)
    (ws : WidgetSpec) (rawValue : Option WidgetValue) :
    applyNumberControl rand k "increment" slot ws rawValue =
      (let bounds := resolveNumberBounds slot (widgetNumDefault ws) (resolveNumberStep slot)
       let next := JSNum.add
         (resolveNumericValue rawValue (widgetNumDefault ws)
           (decide (slot.valueType = "INT")))
         (.finite (resolveNumberStep slot))
       let next1 := if JSNum.lt next bounds.1 then bounds.1 else next
       let next2 := if JSNum.lt bounds.2 next1 then bounds.2 else next1
       (some (if slot.valueType = "INT" then jsTrunc next2 else next2),
         k)) := by
  unfold applyNumberControl
  rfl

lemma applyNumberControl_decrement (rand : ℕ → ℚ) (k : ℕ) (slot : InputSlot)
    (ws : WidgetSpec) (rawValue : Option WidgetValue) :
    applyNumberControl rand k "decrement" slot ws rawValue =
      (let bounds := resolveNumberBounds slot (widgetNumDefault ws) (resolveNumberStep slot)
       let next := JSNum.sub
         (resolveNumericValue rawValue (widgetNumDefault ws)
           (decide (slot.valueType = "INT")))
         (.finite (resolveNumberStep slot))
       let next1 := if JSNum.lt next bounds.1 then bounds.1 else next
       let next2 := if JSNum.lt bounds.2 next1 then bounds.2 else next1
       (some (if slot.valueType = "INT" then jsTrunc next2 else next2),
         k)) := by
  unfold applyNumberControl
  rfl

lemma applyNumberControl_randomize (rand : ℕ → ℚ) (k : ℕ) (slot : InputSlot)
    (ws : WidgetSpec) (rawValue : Option WidgetValue) :
    applyNumberControl rand k "randomize" slot ws rawValue =
      (let bounds := resolveNumberBounds slot (widgetNumDefault ws) (resolveNumberStep slot)
       let nextK : JSNum × ℕ :=
         (let range := JSNum.div (JSNum.sub bounds.2 bounds.1)
            (.finite (resolveNumberStep slot))
          if JSNum.lt (.finite 0) range then
            (JSNum.add (JSNum.mul (jsFloor (JSNum.mul (.finite (rand k)) range))
              (.finite (resolveNumberStep slot))) bounds.1, k + 1)
          else (JSNum.add (JSNum.mul (.finite 0) (.finite (resolveNumberStep slot)))
            bounds.1, k))
       let next1 := if JSNum.lt nextK.1 bounds.1 then bounds.1 else nextK.1
       let next2 := if JSNum.lt bounds.2 next1 then bounds.2 else next1
       (some (if slot.valueType = "INT" then jsTrunc next2 else next2),
         nextK.2)) := by
  unfold applyNumberControl
  rfl

unseal Rat.mul Rat.add Rat.sub Rat.inv in
/-- C4: increment adds and decrement subtracts the declared step's
absolute value (`1` when the step is absent or zero); the result is
clamped into the resolved bounds and truncated toward zero for
INT-declared slots.  Concretely: increment from `5` with `step 2, max 10`
yields `7`, from `9` it clamps to `10`, and with `min 0, max 10, step 1`
every randomize draw lands in `{0, ..., 10}`. -/
theorem number_control_spec :
    (∀ (slot : InputSlot) (q : ℚ), slot.config.bind (·.step) = some (.finite q) →
      q ≠ 0 → resolveNumberStep slot = |q|) ∧
    (∀ slot : InputSlot, slot.config.bind (·.step) = some (.finite 0) →
      resolveNumberStep slot = 1) ∧
    (∀ slot : InputSlot, slot.config.bind (·.step) = none → resolveNumberStep slot = 1) ∧
    (∀ (rand : ℕ → ℚ) (k : ℕ) (slot : InputSlot) (ws : WidgetSpec)
        (rawValue : Option WidgetValue) (mn mx c : ℚ),
      resolveNumberBounds slot (widgetNumDefault ws) (resolveNumberStep slot) =
        (.finite mn, .finite mx) →
      resolveNumericValue rawValue (widgetNumDefault ws)
        (decide (slot.valueType = "INT")) = .finite c →
      applyNumberControl rand k "increment" slot ws rawValue =
        (some (.finite (truncIfInt slot (clampQ mn mx (c + resolveNumberStep slot)))),
          k)) ∧
    (∀ (rand : ℕ → ℚ) (k : ℕ) (slot : InputSlot) (ws : WidgetSpec)
        (rawValue : Option WidgetValue) (mn mx c : ℚ),
      resolveNumberBounds slot (widgetNumDefault ws) (resolveNumberStep slot) =
        (.finite mn, .finite mx) →
      resolveNumericValue rawValue (widgetNumDefault ws)
        (decide (slot.valueType = "INT")) = .finite c →
      applyNumberControl rand k "decrement" slot ws rawValue =
        (some (.finite (truncIfInt slot (clampQ mn mx (c - resolveNumberStep slot)))),
          k)) ∧
    (∀ (rand : ℕ → ℚ) (k : ℕ),
      applyNumberControl rand k "increment" exSlotStep2 exSeedSpec
        (some (.num (.finite 5))) = (some (.finite 7), k)) ∧
    (∀ (rand : ℕ → ℚ) (k : ℕ),
      applyNumberControl rand k "increment" exSlotStep2 exSeedSpec
        (some (.num (.finite 9))) = (some (.finite 10), k)) ∧
    (∀ (rand : ℕ → ℚ) (k : ℕ) (rawValue : Option WidgetValue),
      0 ≤ rand k → rand k < 1 →
      ∃ n : ℤ, applyNumberControl rand k "randomize" exSlotSeed exSeedSpec rawValue =
        (some (.finite n), k + 1) ∧ 0 ≤ n ∧ n ≤ 10) := by
  have hstep1 : ∀ (slot : InputSlot) (q : ℚ),
      slot.config.bind (·.step) = some (.finite q) → q ≠ 0 →
      resolveNumberStep slot = |q| := by
    intro slot q h hq
    unfold resolveNumberStep
    rw [h]
    simp [hq]
  have hinc : ∀ (rand : ℕ → ℚ) (k : ℕ) (slot : InputSlot) (ws : WidgetSpec)
      (rawValue : Option WidgetValue) (mn mx c : ℚ),
      resolveNumberBounds slot (widgetNumDefault ws) (resolveNumberStep slot) =
        (.finite mn, .finite mx) →
      resolveNumericValue rawValue (widgetNumDefault ws)
        (decide (slot.valueType = "INT")) = .finite c →
      applyNumberControl rand k "increment" slot ws rawValue =
        (some (.finite (truncIfInt slot (clampQ mn mx (c + resolveNumberStep slot)))),
          k) := by
    intro rand k slot ws rawValue mn mx c hb hc
    have hle := resolveNumberBounds_le _ _ _ mn mx hb
    rw [applyNumberControl_increment]
    simp only [hb, hc, jsnum_add_finite]
    rw [clamp_code_eq mn mx (c + resolveNumberStep slot) hle]
    by_cases hint : slot.valueType = "INT"
    · simp [hint, truncIfInt, jsTrunc]
    · simp [hint, truncIfInt]
  have hdec : ∀ (rand : ℕ → ℚ) (k : ℕ) (slot : InputSlot) (ws : WidgetSpec)
      (rawValue : Option WidgetValue) (mn mx c : ℚ),
      resolveNumberBounds slot (widgetNumDefault ws) (resolveNumberStep slot) =
        (.finite mn, .finite mx) →
      resolveNumericValue rawValue (widgetNumDefault ws)
        (decide (slot.valueType = "INT")) = .finite c →
      applyNumberControl rand k "decrement" slot ws rawValue =
        (some (.finite (truncIfInt slot (clampQ mn mx (c - resolveNumberStep slot)))),
          k) := by
    intro rand k slot ws rawValue mn mx c hb hc
    have hle := resolveNumberBounds_le _ _ _ mn mx hb
    rw [applyNumberControl_decrement]
    simp only [hb, hc, jsnum_sub_finite]
    rw [clamp_code_eq mn mx (c - resolveNumberStep slot) hle]
    by_cases hint : slot.valueType = "INT"
    · simp [hint, truncIfInt, jsTrunc]
    · simp [hint, truncIfInt]
  refine ⟨hstep1, ?_, ?_, hinc, hdec, ?_, ?_, ?_⟩
  · intro slot h
    unfold resolveNumberStep
    rw [h]
    simp
  · intro slot h
    unfold resolveNumberStep
    rw [h]
    simp
  · intro rand k
    have h := hinc rand k exSlotStep2 exSeedSpec (some (.num (.finite 5))) 0 10 5
      (by decide) (by decide)
    rw [h, show resolveNumberStep exSlotStep2 = 2 from by decide,
      show truncIfInt exSlotStep2 (clampQ 0 10 (5 + 2)) = 7 from by decide]
  · intro rand k
    have h := hinc rand k exSlotStep2 exSeedSpec (some (.num (.finite 9))) 0 10 9
      (by decide) (by decide)
    rw [h, show resolveNumberStep exSlotStep2 = 2 from by decide,
      show truncIfInt exSlotStep2 (clampQ 0 10 (9 + 2)) = 10 from by decide]
  · intro rand k rawValue h0 h1
    rw [applyNumberControl_randomize,
      show resolveNumberBounds exSlotSeed (widgetNumDefault exSeedSpec)
        (resolveNumberStep exSlotSeed) = (.finite 0, .finite 10) from by decide,
      show resolveNumberStep exSlotSeed = 1 from by decide]
    dsimp only
    rw [show JSNum.div (JSNum.sub (.finite 10) (.finite 0)) (.finite 1) =
      (.finite 10 : JSNum) from by decide]
    rw [show (JSNum.lt (.finite 0) (.finite 10) : Bool) = true from by decide]
    rw [if_pos rfl]
    dsimp only
    refine ⟨ratFloor (rand k * 10), ?_, ?_, ?_⟩
    · have hmul : JSNum.mul (.finite (rand k)) (.finite 10) =
          .finite (rand k * 10) := rfl
      rw [hmul]
      have hfl : jsFloor (.finite (rand k * 10)) =
          .finite ((ratFloor (rand k * 10) : ℚ)) := rfl
      rw [hfl]
      have hval : JSNum.add (JSNum.mul (.finite ((ratFloor (rand k * 10) : ℚ)))
          (.finite 1)) (.finite 0) = .finite ((ratFloor (rand k * 10) : ℚ)) := by
        simp [JSNum.mul, JSNum.add]
      rw [hval]
      have hn0 : (0 : ℤ) ≤ ratFloor (rand k * 10) := by
        rw [ratFloor_eq_floor]
        exact Int.floor_nonneg.mpr (by nlinarith)
      have hn9 : ratFloor (rand k * 10) ≤ 9 := by
        rw [ratFloor_eq_floor]
        have : (⌊rand k * 10⌋ : ℤ) < 10 := Int.floor_lt.mpr (by push_cast; nlinarith)
        omega
      have hlt1 : JSNum.lt (.finite ((ratFloor (rand k * 10) : ℚ))) (.finite 0) =
          false := by
        simp only [JSNum.lt, decide_eq_false_iff_not, not_lt]
        exact_mod_cast hn0
      rw [hlt1]
      simp only [Bool.false_eq_true, if_false]
      have hlt2 : JSNum.lt (.finite 10) (.finite ((ratFloor (rand k * 10) : ℚ))) =
          false := by
        simp only [JSNum.lt, decide_eq_false_iff_not, not_lt]
        have : ((ratFloor (rand k * 10) : ℚ)) ≤ 9 := by exact_mod_cast hn9
        linarith
      rw [hlt2]
      simp only [Bool.false_eq_true, if_false]
      rw [if_pos (show exSlotSeed.valueType = "INT" from rfl)]
      rw [show jsTrunc (.finite ((ratFloor (rand k * 10) : ℚ))) =
        .finite ((ratTrunc ((ratFloor (rand k * 10) : ℚ)) : ℚ)) from rfl]
      rw [ratTrunc_intCast]
    · rw [ratFloor_eq_floor]
      exact Int.floor_nonneg.mpr (by nlinarith)
    · rw [ratFloor_eq_floor]
      have : (⌊rand k * 10⌋ : ℤ) < 10 := Int.floor_lt.mpr (by push_cast; nlinarith)
      omega

unseal Rat.mul Rat.add Rat.sub Rat.inv in
theorem number_control_spec_witness :
    resolveNumberStep exSlotStep2 = |(2 : ℚ)| ∧
    applyNumberControl (fun _ => 0) 0 "increment" exSlotStep2 exSeedSpec
      (some (.num (.finite 5))) = (some (.finite 7), 0) ∧
    applyNumberControl (fun _ => 0) 0 "increment" exSlotStep2 exSeedSpec
      (some (.num (.finite 9))) = (some (.finite 10), 0) ∧
    (∃ n : ℤ, applyNumberControl (fun _ => 1/2) 0 "randomize" exSlotSeed exSeedSpec
      none = (some (.finite n), 1) ∧ 0 ≤ n ∧ n ≤ 10) ∧
    applyNumberControl (fun _ => 0) 0 "decrement" exSlotStep2 exSeedSpec
      (some (.num (.finite 5))) =
      (some (.finite (truncIfInt exSlotStep2
        (clampQ 0 10 (5 - resolveNumberStep exSlotStep2)))), 0) := by
  refine ⟨number_control_spec.1 exSlotStep2 2 (by decide) (by norm_num),
    number_control_spec.2.2.2.2.2.1 (fun _ => 0) 0,
    number_control_spec.2.2.2.2.2.2.1 (fun _ => 0) 0,
    number_control_spec.2.2.2.2.2.2.2 (fun _ => 1/2) 0 none (by norm_num) (by norm_num),
    number_control_spec.2.2.2.2.1 (fun _ => 0) 0 exSlotStep2 exSeedSpec
      (some (.num (.finite 5))) 0 10 5 (by decide) (by decide)⟩

/-! ## C9 — randomize never reaches the declared max (amended) -/

/-- Fixture: fractional negative bounds `min -3, max -1, step 1/2`. -/
def exFracConfig : SlotConfig :=
  { min := some (.finite (-3)), max := some (.finite (-1)), step := some (.finite (1/2)) }

/-- Fixture: a number widget with no declared default. -/
def exFracSpec : WidgetSpec := { kind := "number" }

/-- Fixture: an INT slot over the fractional negative bounds. -/
def exSlotFrac : InputSlot :=
  { name := "bias", group := "optional", valueType := "INT",
    config := some exFracConfig, widgetSpec := some exFracSpec }

unseal Rat.mul Rat.add Rat.sub Rat.inv in
/-- C9 counterexample: on an INT-declared slot with bounds `[-3, -1]` and
step `1/2` (which divides `max - min = 2` exactly), the draw `7/8` gives
the pre-truncation value `-3/2 = max - step`, but `Math.trunc` rounds it
up to `-1`: randomize produces exactly the declared max, and the final
value exceeds `max - step`. -/
theorem randomize_can_hit_max_cex :
    resolveNumberStep exSlotFrac = 1/2 ∧
    resolveNumberBounds exSlotFrac (widgetNumDefault exFracSpec)
      (resolveNumberStep exSlotFrac) = (.finite (-3), .finite (-1)) ∧
    applyNumberControl (fun _ => 7/8) 0 "randomize" exSlotFrac exFracSpec
      (some (.num (.finite (-3)))) = (some (.finite (-1)), 1) ∧
    ¬ ((-1 : ℚ) ≤ (-1) - 1/2) := by
  refine ⟨by decide, by decide, by decide, by norm_num⟩

lemma resolveNumberStep_pos (slot : InputSlot) : 0 < resolveNumberStep slot := by
  unfold resolveNumberStep
  rcases slot.config.bind (·.step) with _ | n
  · norm_num
  · rcases n with q | _ | _ | _ <;> simp only
    · by_cases hq : q = 0
      · rw [if_pos hq]; norm_num
      · rw [if_neg hq]; exact abs_pos.mpr hq
    all_goals norm_num

lemma randomize_value (rand : ℕ → ℚ) (k : ℕ) (slot : InputSlot) (ws : WidgetSpec)
    (rawValue : Option WidgetValue) (mn mx s : ℚ)
    (hs : resolveNumberStep slot = s)
    (hb : resolveNumberBounds slot (widgetNumDefault ws) s = (.finite mn, .finite mx))
    (hlt : mn < mx) (hdvd : ∃ m : ℤ, mx - mn = m * s)
    (h0 : 0 ≤ rand k) (h1 : rand k < 1) :
    applyNumberControl rand k "randomize" slot ws rawValue =
      (some (if slot.valueType = "INT"
        then jsTrunc (.finite ((⌊rand k * ((mx - mn) / s)⌋ : ℚ) * s + mn))
        else .finite ((⌊rand k * ((mx - mn) / s)⌋ : ℚ) * s + mn)), k + 1) ∧
    (⌊rand k * ((mx - mn) / s)⌋ : ℚ) * s + mn ≤ mx - s ∧
    mn ≤ (⌊rand k * ((mx - mn) / s)⌋ : ℚ) * s + mn := by
  have hspos : 0 < s := hs ▸ resolveNumberStep_pos slot
  obtain ⟨m, hm⟩ := hdvd
  have hrange_eq : (mx - mn) / s = (m : ℚ) := by
    rw [hm]
    field_simp
  have hmpos : (0 : ℚ) < (m : ℚ) := by
    rw [← hrange_eq]
    exact div_pos (by linarith) hspos
  have hmz : (0 : ℤ) < m := by exact_mod_cast hmpos
  have hroll0 : (0 : ℤ) ≤ ⌊rand k * ((mx - mn) / s)⌋ := by
    apply Int.floor_nonneg.mpr
    rw [hrange_eq]
    positivity
  have hroll9 : ⌊rand k * ((mx - mn) / s)⌋ ≤ m - 1 := by
    have : ⌊rand k * ((mx - mn) / s)⌋ < m := by
      apply Int.floor_lt.mpr
      rw [hrange_eq]
      nlinarith
    omega
  have hvup : (⌊rand k * ((mx - mn) / s)⌋ : ℚ) * s + mn ≤ mx - s := by
    have hc : ((⌊rand k * ((mx - mn) / s)⌋ : ℚ)) ≤ (m : ℚ) - 1 := by
      exact_mod_cast hroll9
    nlinarith
  have hvlo : mn ≤ (⌊rand k * ((mx - mn) / s)⌋ : ℚ) * s + mn := by
    have hc : (0 : ℚ) ≤ ((⌊rand k * ((mx - mn) / s)⌋ : ℚ)) := by exact_mod_cast hroll0
    nlinarith
  refine ⟨?_, hvup, hvlo⟩
  rw [applyNumberControl_randomize, hs, hb]
  dsimp only
  rw [jsnum_sub_finite]
  have hdiv : JSNum.div (.finite (mx - mn)) (.finite s) = .finite ((mx - mn) / s) := by
    simp only [JSNum.div]
    rw [if_neg (ne_of_gt hspos)]
  rw [hdiv]
  have hltr : JSNum.lt (.finite 0) (.finite ((mx - mn) / s)) = true := by
    simp only [JSNum.lt, decide_eq_true_eq]
    rw [hrange_eq]
    exact hmpos
  rw [hltr, if_pos rfl]
  dsimp only
  have hmulr : JSNum.mul (.finite (rand k)) (.finite ((mx - mn) / s)) =
      .finite (rand k * ((mx - mn) / s)) := rfl
  rw [hmulr]
  have hfl : jsFloor (.finite (rand k * ((mx - mn) / s))) =
      .finite ((⌊rand k * ((mx - mn) / s)⌋ : ℚ)) := by
    show JSNum.finite ((ratFloor (rand k * ((mx - mn) / s)) : ℚ)) = _
    rw [ratFloor_eq_floor]
  rw [hfl]
  have hval : JSNum.add (JSNum.mul (.finite ((⌊rand k * ((mx - mn) / s)⌋ : ℚ)))
      (.finite s)) (.finite mn) =
      .finite ((⌊rand k * ((mx - mn) / s)⌋ : ℚ) * s + mn) := rfl
  rw [hval]
  have hc1 : JSNum.lt (.finite ((⌊rand k * ((mx - mn) / s)⌋ : ℚ) * s + mn))
      (.finite mn) = false := by
    simp only [JSNum.lt, decide_eq_false_iff_not, not_lt]
    exact hvlo
  rw [hc1]
  simp only [Bool.false_eq_true, if_false]
  have hc2 : JSNum.lt (.finite mx)
      (.finite ((⌊rand k * ((mx - mn) / s)⌋ : ℚ) * s + mn)) = false := by
    simp only [JSNum.lt, decide_eq_false_iff_not, not_lt]
    linarith
  rw [hc2]
  simp only [Bool.false_eq_true, if_false]

/-- C9 amended: with resolved bounds `min < max` and a step dividing
`max - min` exactly, the pre-truncation randomize value is
`roll * step + min` with `roll = floor(r * (max - min) / step)`, and it
is at most `max - step`; hence for a slot that is not INT-declared the
declared max is never produced, and with equal resolved bounds the
result is `min`.  An INT-declared slot receives that value truncated
toward zero — which, as the counterexample shows, can equal the declared
max. -/
theorem randomize_spec_amended :
    (∀ (rand : ℕ → ℚ) (k : ℕ) (slot : InputSlot) (ws : WidgetSpec)
        (rawValue : Option WidgetValue) (mn mx s : ℚ),
      resolveNumberStep slot = s →
      resolveNumberBounds slot (widgetNumDefault ws) s = (.finite mn, .finite mx) →
      mn < mx → (∃ m : ℤ, mx - mn = m * s) → 0 ≤ rand k → rand k < 1 →
      slot.valueType ≠ "INT" →
      applyNumberControl rand k "randomize" slot ws rawValue =
        (some (.finite ((⌊rand k * ((mx - mn) / s)⌋ : ℚ) * s + mn)), k + 1) ∧
      (⌊rand k * ((mx - mn) / s)⌋ : ℚ) * s + mn ≤ mx - s ∧
      (⌊rand k * ((mx - mn) / s)⌋ : ℚ) * s + mn < mx) ∧
    (∀ (rand : ℕ → ℚ) (k : ℕ) (slot : InputSlot) (ws : WidgetSpec)
        (rawValue : Option WidgetValue) (mn mx s : ℚ),
      resolveNumberStep slot = s →
      resolveNumberBounds slot (widgetNumDefault ws) s = (.finite mn, .finite mx) →
      mn < mx → (∃ m : ℤ, mx - mn = m * s) → 0 ≤ rand k → rand k < 1 →
      slot.valueType = "INT" →
      applyNumberControl rand k "randomize" slot ws rawValue =
        (some (.finite ((ratTrunc ((⌊rand k * ((mx - mn) / s)⌋ : ℚ) * s + mn) : ℚ))),
          k + 1) ∧
      (⌊rand k * ((mx - mn) / s)⌋ : ℚ) * s + mn ≤ mx - s) ∧
    (∀ (rand : ℕ → ℚ) (k : ℕ) (slot : InputSlot) (ws : WidgetSpec)
        (rawValue : Option WidgetValue) (mn s : ℚ),
      resolveNumberStep slot = s →
      resolveNumberBounds slot (widgetNumDefault ws) s = (.finite mn, .finite mn) →
      slot.valueType ≠ "INT" →
      applyNumberControl rand k "randomize" slot ws rawValue =
        (some (.finite mn), k)) := by
  refine ⟨?_, ?_, ?_⟩
  · intro rand k slot ws rawValue mn mx s hs hb hlt hdvd h0 h1 hni
    obtain ⟨heq, hup, hlo⟩ :=
      randomize_value rand k slot ws rawValue mn mx s hs hb hlt hdvd h0 h1
    rw [if_neg hni] at heq
    have hspos : 0 < s := hs ▸ resolveNumberStep_pos slot
    exact ⟨heq, hup, by linarith⟩
  · intro rand k slot ws rawValue mn mx s hs hb hlt hdvd h0 h1 hint
    obtain ⟨heq, hup, hlo⟩ :=
      randomize_value rand k slot ws rawValue mn mx s hs hb hlt hdvd h0 h1
    rw [if_pos hint] at heq
    exact ⟨heq, hup⟩
  · intro rand k slot ws rawValue mn s hs hb hni
    have hspos : 0 < s := hs ▸ resolveNumberStep_pos slot
    rw [applyNumberControl_randomize, hs, hb]
    dsimp only
    rw [jsnum_sub_finite, sub_self]
    have hdiv : JSNum.div (.finite 0) (.finite s) = .finite (0 / s) := by
      simp only [JSNum.div]
      rw [if_neg (ne_of_gt hspos)]
    rw [hdiv, zero_div]
    have hltr : JSNum.lt (.finite 0) (.finite 0) = false := by
      simp [JSNum.lt]
    rw [hltr]
    simp only [Bool.false_eq_true, if_false]
    have hval : JSNum.add (JSNum.mul (.finite 0) (.finite s)) (.finite mn) =
        .finite mn := by
      simp [JSNum.mul, JSNum.add]
    rw [hval]
    have hc1 : JSNum.lt (.finite mn) (.finite mn) = false := by simp [JSNum.lt]
    rw [hc1]
    simp only [Bool.false_eq_true, if_false]
    rw [hc1]
    simp only [Bool.false_eq_true, if_false]
    rw [if_neg hni]

/-- Fixture: a FLOAT slot over the `min 0, max 10, step 1` bounds. -/
def exSlotFloatB : InputSlot :=
  { name := "cfgs", group := "optional", valueType := "FLOAT",
    config := some exSeedConfig, widgetSpec := some exFracSpec }

/-- Fixture: declared bounds collapsing to the single point `5`. -/
def exEqConfig : SlotConfig := { min := some (.finite 5), max := some (.finite 5) }

/-- Fixture: a FLOAT slot with equal resolved bounds. -/
def exSlotEq : InputSlot :=
  { name := "fixedpt", group := "optional", valueType := "FLOAT",
    config := some exEqConfig, widgetSpec := some exFracSpec }

unseal Rat.mul Rat.add Rat.sub Rat.inv in
theorem randomize_spec_amended_witness :
    (applyNumberControl (fun _ => 1/2) 0 "randomize" exSlotFloatB exFracSpec none =
      (some (.finite ((⌊(1/2 : ℚ) * ((10 - 0) / 1)⌋ : ℚ) * 1 + 0)), 0 + 1) ∧
      (⌊(1/2 : ℚ) * ((10 - 0) / 1)⌋ : ℚ) * 1 + 0 ≤ 10 - 1 ∧
      (⌊(1/2 : ℚ) * ((10 - 0) / 1)⌋ : ℚ) * 1 + 0 < 10) ∧
    (applyNumberControl (fun _ => 7/8) 0 "randomize" exSlotFrac exFracSpec none =
      (some (.finite ((ratTrunc ((⌊(7/8 : ℚ) * ((-1 - -3) / (1/2))⌋ : ℚ) * (1/2) + -3) :
        ℚ))), 0 + 1) ∧
      (⌊(7/8 : ℚ) * ((-1 - -3) / (1/2))⌋ : ℚ) * (1/2) + -3 ≤ -1 - 1/2) ∧
    applyNumberControl (fun _ => 1/2) 0 "randomize" exSlotEq exFracSpec none =
      (some (.finite 5), 0) := by
  refine ⟨randomize_spec_amended.1 (fun _ => 1/2) 0 exSlotFloatB exFracSpec none 0 10 1
      (by decide) (by decide) (by norm_num) ⟨10, by norm_num⟩ (by norm_num) (by norm_num)
      (by decide),
    randomize_spec_amended.2.1 (fun _ => 7/8) 0 exSlotFrac exFracSpec none (-3) (-1) (1/2)
      (by decide) (by decide) (by norm_num) ⟨4, by norm_num⟩ (by norm_num) (by norm_num)
      (by decide),
    randomize_spec_amended.2.2 (fun _ => 1/2) 0 exSlotEq exFracSpec none 5 1
      (by decide) (by decide) (by decide)⟩

/-! ## C5 — the "before"-mode idempotency gate -/

lemma controlSlotStep_executed_cases (rand : ℕ → ℚ) (mode nodeId : String)
    (wv : List (String × WidgetValue)) (cv : List (String × String))
    (st : SlotLoopState) (slot : InputSlot) :
    (controlSlotStep rand mode nodeId wv cv st slot).executed = st.executed ∨
    (controlSlotStep rand mode nodeId wv cv st slot).executed =
      st.executed.map (fun ex => ex ++ [nodeId ++ ":" ++ slot.name]) := by
  unfold controlSlotStep
  dsimp only
  repeat' split
  all_goals first | exact Or.inl rfl | exact Or.inr rfl

lemma controlSlotStep_executed_mono (rand : ℕ → ℚ) (mode nodeId : String)
    (wv : List (String × WidgetValue)) (cv : List (String × String))
    (st : SlotLoopState) (slot : InputSlot) (ex : List String)
    (hex : st.executed = some ex) :
    ∃ ex', (controlSlotStep rand mode nodeId wv cv st slot).executed = some ex' ∧
      ex ⊆ ex' := by
  rcases controlSlotStep_executed_cases rand mode nodeId wv cv st slot with h | h
  · exact ⟨ex, h.trans hex, fun x hx => hx⟩
  · refine ⟨ex ++ [nodeId ++ ":" ++ slot.name], ?_, fun x hx => List.mem_append.mpr (Or.inl hx)⟩
    rw [h, hex]
    rfl

lemma controlSlotStep_first_obs (rand : ℕ → ℚ) (nodeId : String)
    (wv : List (String × WidgetValue)) (cv : List (String × String))
    (st : SlotLoopState) (slot : InputSlot) (ex : List String)
    (hen : isControlAfterGenerateEnabled slot = true)
    (hex : st.executed = some ex)
    (hnot : nodeId ++ ":" ++ slot.name ∉ ex) :
    controlSlotStep rand "before" nodeId wv cv st slot =
      { st with executed := some (ex ++ [nodeId ++ ":" ++ slot.name]) } := by
  have h0 : (decide (("before" : String) = "before")) = true := by decide
  have h2 : (decide (nodeId ++ ":" ++ slot.name ∉ ex)) = true := decide_eq_true hnot
  unfold controlSlotStep
  simp [hen, hex, h0, h2]

lemma controlSlotStep_seen (rand : ℕ → ℚ) (nodeId : String)
    (wv : List (String × WidgetValue)) (cv : List (String × String))
    (st : SlotLoopState) (slot : InputSlot) (ex : List String)
    (hex : st.executed = some ex)
    (hmem : nodeId ++ ":" ++ slot.name ∈ ex) :
    controlSlotStep rand "before" nodeId wv cv st slot =
      controlSlotStep rand "after" nodeId wv cv st slot := by
  have h1 : (decide (("after" : String) = "before")) = false := by decide
  have h2 : (decide (nodeId ++ ":" ++ slot.name ∉ ex)) = false :=
    decide_eq_false (not_not_intro hmem)
  unfold controlSlotStep
  simp [hex, h1, h2]

lemma foldl_controlSlotStep_executed_mono (rand : ℕ → ℚ) (mode nodeId : String)
    (wv : List (String × WidgetValue)) (cv : List (String × String))
    (slots : List InputSlot) (st : SlotLoopState) (ex : List String)
    (hex : st.executed = some ex) :
    ∃ ex', (slots.foldl (controlSlotStep rand mode nodeId wv cv) st).executed = some ex' ∧
      ex ⊆ ex' := by
  induction slots generalizing st ex with
  | nil => exact ⟨ex, hex, fun x hx => hx⟩
  | cons s ss ih =>
      obtain ⟨ex1, h1, hsub1⟩ := controlSlotStep_executed_mono rand mode nodeId wv cv st s ex hex
      obtain ⟨ex2, h2, hsub2⟩ := ih _ _ h1
      exact ⟨ex2, h2, fun x hx => hsub2 (hsub1 hx)⟩

lemma processControlNode_executed_mono (rand : ℕ → ℚ) (nodeSchemas : NodeSchemaMap)
    (mode : String) (nodes : List GraphNode) (st : EngineState) (p : ℕ × GraphNode)
    (ex : List String) (hex : st.executed = some ex) :
    ∃ ex', (processControlNode rand nodeSchemas mode nodes st p).executed = some ex' ∧
      ex ⊆ ex' := by
  unfold processControlNode
  dsimp only
  repeat' split
  all_goals
    first
      | exact ⟨ex, hex, fun x hx => hx⟩
      | exact foldl_controlSlotStep_executed_mono rand mode p.2.id _ _ _ _ ex hex

lemma foldl_processControlNode_executed_mono (rand : ℕ → ℚ) (nodeSchemas : NodeSchemaMap)
    (mode : String) (nodes : List GraphNode) (ps : List (ℕ × GraphNode))
    (st : EngineState) (ex : List String) (hex : st.executed = some ex) :
    ∃ ex', (ps.foldl (processControlNode rand nodeSchemas mode nodes) st).executed = some ex' ∧
      ex ⊆ ex' := by
  induction ps generalizing st ex with
  | nil => exact ⟨ex, hex, fun x hx => hx⟩
  | cons q qs ih =>
      obtain ⟨ex1, h1, hsub1⟩ :=
        processControlNode_executed_mono rand nodeSchemas mode nodes st q ex hex
      obtain ⟨ex2, h2, hsub2⟩ := ih _ _ h1
      exact ⟨ex2, h2, fun x hx => hsub2 (hsub1 hx)⟩

/-- **C5.**  In "before" mode with an idempotency set supplied: (1) the
first observation of the key `nodeId:slotName` for a control-eligible
slot leaves the slot loop state — in particular the pending widget
values and the draw counter — unchanged except that the key is appended
to the executed set; (2) a subsequent observation of an already-recorded
key behaves exactly as the unconditional "after" mode does, i.e. the
configured mutation is dispatched normally; (3) the engine only ever
adds keys to the set: the final executed set of
`applyControlAfterGenerate` contains every key of the supplied set. -/
theorem before_mode_idempotency_gate :
    (∀ (rand : ℕ → ℚ) (nodeId : String) (wv : List (String × WidgetValue))
        (cv : List (String × String)) (st : SlotLoopState) (slot : InputSlot)
        (ex : List String),
        isControlAfterGenerateEnabled slot = true →
        st.executed = some ex →
        nodeId ++ ":" ++ slot.name ∉ ex →
        controlSlotStep rand "before" nodeId wv cv st slot =
          { st with executed := some (ex ++ [nodeId ++ ":" ++ slot.name]) }) ∧
    (∀ (rand : ℕ → ℚ) (nodeId : String) (wv : List (String × WidgetValue))
        (cv : List (String × String)) (st : SlotLoopState) (slot : InputSlot)
        (ex : List String),
        st.executed = some ex →
        nodeId ++ ":" ++ slot.name ∈ ex →
        controlSlotStep rand "before" nodeId wv cv st slot =
          controlSlotStep rand "after" nodeId wv cv st slot) ∧
    (∀ (rand : ℕ → ℚ) (nodes : List GraphNode) (nodeSchemas : NodeSchemaMap)
        (mode : String) (ex : List String),
        ∃ ex',
          (applyControlAfterGenerate rand nodes nodeSchemas mode (some ex)).executedControls =
            some ex' ∧ ex ⊆ ex') := by
  refine ⟨controlSlotStep_first_obs, controlSlotStep_seen, ?_⟩
  intro rand nodes nodeSchemas mode ex
  exact foldl_processControlNode_executed_mono rand nodeSchemas mode nodes nodes.enum
    ⟨none, some ex, 0⟩ ex rfl

/-- Witness for C5 at concrete inputs: the seed slot of the fixture
schema, key `n1:seed`, first and second observation, and engine-level
set growth. -/
theorem before_mode_idempotency_gate_witness :
    (controlSlotStep (fun _ => 0) "before" "n1" [] [] ⟨none, some [], 0⟩ exSlotSeed =
      ⟨none, some ["n1:seed"], 0⟩) ∧
    (controlSlotStep (fun _ => 0) "before" "n1" [] [] ⟨none, some ["n1:seed"], 0⟩ exSlotSeed =
      controlSlotStep (fun _ => 0) "after" "n1" [] [] ⟨none, some ["n1:seed"], 0⟩ exSlotSeed) ∧
    (∃ ex',
      (applyControlAfterGenerate (fun _ => 0) [] [] "before" (some ["a"])).executedControls =
        some ex' ∧ ["a"] ⊆ ex') := by
  refine ⟨?_, ?_, ?_⟩
  · exact (before_mode_idempotency_gate.1 (fun _ => 0) "n1" [] [] ⟨none, some [], 0⟩
      exSlotSeed [] (by decide) rfl (by decide)).trans (by decide)
  · exact before_mode_idempotency_gate.2.1 (fun _ => 0) "n1" [] []
      ⟨none, some ["n1:seed"], 0⟩ exSlotSeed ["n1:seed"] rfl (by decide)
  · exact before_mode_idempotency_gate.2.2 (fun _ => 0) [] [] "before" ["a"]

/-! ## C7 — copy-on-write frame property of the control engine -/

lemma controlSlotStep_guard_aux (wv : List (String × WidgetValue)) (name : String)
    (nv : WidgetValue)
    (hguard : ¬(match lookupA wv name with
      | some rv => decide (nv = rv)
      | none => false) = true) :
    lookupA wv name ≠ some nv := by
  intro hc
  rw [hc] at hguard
  simp at hguard

lemma controlSlotStep_nwv_cases (rand : ℕ → ℚ) (mode nodeId : String)
    (wv : List (String × WidgetValue)) (cv : List (String × String))
    (st : SlotLoopState) (slot : InputSlot) :
    (controlSlotStep rand mode nodeId wv cv st slot).nextWidgetValues = st.nextWidgetValues ∨
    ∃ nv, lookupA wv slot.name ≠ some nv ∧
      (controlSlotStep rand mode nodeId wv cv st slot).nextWidgetValues =
        some (insertA (st.nextWidgetValues.getD wv) slot.name nv) := by
  unfold controlSlotStep
  dsimp only
  repeat' split
  all_goals try exact Or.inl rfl
  all_goals exact Or.inr ⟨_, controlSlotStep_guard_aux wv slot.name _ (by assumption), rfl⟩

lemma foldl_controlSlotStep_nwv_inv (rand : ℕ → ℚ) (mode nodeId : String)
    (wv : List (String × WidgetValue)) (cv : List (String × String))
    (slots : List InputSlot) (st : SlotLoopState)
    (h : ∀ nwv, st.nextWidgetValues = some nwv → ∃ s, lookupA nwv s ≠ lookupA wv s) :
    ∀ nwv,
      (slots.foldl (controlSlotStep rand mode nodeId wv cv) st).nextWidgetValues = some nwv →
      ∃ s, lookupA nwv s ≠ lookupA wv s := by
  induction slots generalizing st with
  | nil => exact h
  | cons s ss ih =>
      refine ih _ ?_
      intro nwv hnwv
      rcases controlSlotStep_nwv_cases rand mode nodeId wv cv st s with hc | ⟨nv, hne, hc⟩
      · exact h nwv (hc.symm.trans hnwv)
      · rw [hc] at hnwv
        obtain rfl := Option.some.inj hnwv
        refine ⟨s.name, ?_⟩
        rw [lookupA_insertA, if_pos rfl]
        exact fun hcc => hne hcc.symm

/-- A node replaced by the control engine: same node except that the
widget-value record of its data is swapped for a genuinely different
one. -/
def changedNode (node node' : GraphNode) : Prop :=
  ∃ d nwv, node.data = some d ∧
    node' = { node with data := some { d with widgetValues := some nwv } } ∧
    some nwv ≠ d.widgetValues

lemma changedNode_ne {node node' : GraphNode} (h : changedNode node node') : node' ≠ node := by
  obtain ⟨d, nwv, hd, rfl, hne⟩ := h
  intro hc
  have h1 : some ({ d with widgetValues := some nwv } : NodeData) = node.data :=
    congrArg GraphNode.data hc
  rw [hd] at h1
  exact hne (congrArg NodeData.widgetValues (Option.some.inj h1))

lemma changedNode_of_fold (node : GraphNode) (d : NodeData) (hd : node.data = some d)
    (nwv : List (String × WidgetValue))
    (hdiff : ∃ s, lookupA nwv s ≠ lookupA ((node.data.bind (·.widgetValues)).getD []) s) :
    changedNode node { node with data := some { d with widgetValues := some nwv } } := by
  refine ⟨d, nwv, hd, rfl, ?_⟩
  rcases hw : d.widgetValues with _ | wv0
  · exact fun hc => Option.noConfusion hc
  · obtain ⟨s, hs⟩ := hdiff
    rw [hd] at hs
    simp only [Option.bind_eq_bind, Option.some_bind, hw, Option.getD_some] at hs
    intro hc
    have h1 : nwv = wv0 := Option.some.inj hc
    rw [h1] at hs
    exact hs rfl

/-- The copy-on-write invariant of the node loop: either no fresh array
has been allocated yet, or the fresh array has the input's length, agrees
with the input except at indices holding replaced nodes, and genuinely
differs somewhere. -/
def cowInv (nodes : List GraphNode) (st : EngineState) : Prop :=
  st.nextNodes = none ∨
    ∃ cur, st.nextNodes = some cur ∧ cur.length = nodes.length ∧
      (∀ i : ℕ, cur[i]? = nodes[i]? ∨
        ∃ node node', nodes[i]? = some node ∧ cur[i]? = some node' ∧ changedNode node node') ∧
      ∃ i : ℕ, cur[i]? ≠ nodes[i]?

lemma cowInv_set (nodes : List GraphNode) (st : EngineState) (h : cowInv nodes st)
    (idx : ℕ) (node nextNode : GraphNode) (hp : nodes[idx]? = some node)
    (hchg : changedNode node nextNode) (e : Option (List String)) (k : ℕ) :
    cowInv nodes ⟨some ((st.nextNodes.getD nodes).set idx nextNode), e, k⟩ := by
  have hidxlt : idx < nodes.length := by
    by_contra hge
    rw [List.getElem?_eq_none_iff.mpr (le_of_not_lt hge)] at hp
    exact Option.noConfusion hp
  have hstep : ∀ (cur : List GraphNode), cur.length = nodes.length →
      (∀ i : ℕ, cur[i]? = nodes[i]? ∨
        ∃ node node', nodes[i]? = some node ∧ cur[i]? = some node' ∧ changedNode node node') →
      cowInv nodes ⟨some (cur.set idx nextNode), e, k⟩ := by
    intro cur hlen hidx
    refine Or.inr ⟨cur.set idx nextNode, rfl, (List.length_set cur idx nextNode).trans hlen, ?_, ?_⟩
    · intro i
      by_cases hij : idx = i
      · subst hij
        refine Or.inr ⟨node, nextNode, hp, ?_, hchg⟩
        exact List.getElem?_set_self (hlen.symm ▸ hidxlt)
      · rcases hidx i with h1 | ⟨n1, n2, h1, h2, h3⟩
        · exact Or.inl ((List.getElem?_set_ne hij).trans h1)
        · exact Or.inr ⟨n1, n2, h1, (List.getElem?_set_ne hij).trans h2, h3⟩
    · refine ⟨idx, ?_⟩
      rw [List.getElem?_set_self (hlen.symm ▸ hidxlt), hp]
      intro hc
      exact changedNode_ne hchg (Option.some.inj hc)
  rcases h with hnone | ⟨cur, hcur, hlen, hidx, _⟩
  · rw [hnone]
    exact hstep nodes rfl (fun i => Or.inl rfl)
  · rw [hcur]
    exact hstep cur hlen hidx

lemma processControlNode_cowInv (rand : ℕ → ℚ) (nodeSchemas : NodeSchemaMap)
    (mode : String) (nodes : List GraphNode) (st : EngineState) (p : ℕ × GraphNode)
    (hp : nodes[p.1]? = some p.2) (h : cowInv nodes st) :
    cowInv nodes (processControlNode rand nodeSchemas mode nodes st p) := by
  unfold processControlNode
  dsimp only
  repeat' split
  all_goals try exact h
  rename_i x1 nwv hW x2 d hD
  exact cowInv_set nodes st h p.1 p.2 _ hp
    (changedNode_of_fold p.2 d hD nwv
      (foldl_controlSlotStep_nwv_inv rand mode p.2.id _ _ _ _
        (fun nwv0 h0 => Option.noConfusion h0) nwv hW)) _ _

lemma foldl_processControlNode_cowInv (rand : ℕ → ℚ) (nodeSchemas : NodeSchemaMap)
    (mode : String) (nodes : List GraphNode) (ps : List (ℕ × GraphNode))
    (st : EngineState) (hps : ∀ p ∈ ps, nodes[p.1]? = some p.2) (h : cowInv nodes st) :
    cowInv nodes (ps.foldl (processControlNode rand nodeSchemas mode nodes) st) := by
  induction ps generalizing st with
  | nil => exact h
  | cons q qs ih =>
      exact ih _ (fun p hp => hps p (List.mem_cons_of_mem q hp))
        (processControlNode_cowInv rand nodeSchemas mode nodes st q
          (hps q (List.mem_cons_self q qs)) h)

lemma cowInv_result (nodes : List GraphNode) (final : EngineState)
    (h : cowInv nodes final) :
    (final.nextNodes.isSome = false → final.nextNodes.getD nodes = nodes) ∧
    (final.nextNodes.getD nodes).length = nodes.length ∧
    (∀ i : ℕ, (final.nextNodes.getD nodes)[i]? = nodes[i]? ∨
      ∃ node node', nodes[i]? = some node ∧
        (final.nextNodes.getD nodes)[i]? = some node' ∧ changedNode node node') ∧
    (final.nextNodes.isSome = true → ∃ i : ℕ, (final.nextNodes.getD nodes)[i]? ≠ nodes[i]?) := by
  rcases h with hnone | ⟨cur, hcur, hlen, hidx, hex⟩
  · rw [hnone]
    refine ⟨fun _ => rfl, rfl, fun i => Or.inl rfl, fun hc => ?_⟩
    exact absurd hc (by simp)
  · rw [hcur]
    refine ⟨fun hc => absurd hc (by simp), hlen, hidx, fun _ => hex⟩

/-- **C7.**  The control engine is copy-on-write: when nothing changed it
returns the input collection itself with `didMutate = false`; in every
case the result has the input's length and agrees with the input at
every index except those holding a replaced node — a node equal to the
original except for a genuinely different widget-value record — and when
`didMutate = true` some index really does hold a different node. -/
theorem control_engine_copy_on_write (rand : ℕ → ℚ) (nodes : List GraphNode)
    (nodeSchemas : NodeSchemaMap) (mode : String) (exc : Option (List String)) :
    ((applyControlAfterGenerate rand nodes nodeSchemas mode exc).didMutate = false →
      (applyControlAfterGenerate rand nodes nodeSchemas mode exc).nodes = nodes) ∧
    (applyControlAfterGenerate rand nodes nodeSchemas mode exc).nodes.length = nodes.length ∧
    (∀ i : ℕ,
      (applyControlAfterGenerate rand nodes nodeSchemas mode exc).nodes[i]? = nodes[i]? ∨
      ∃ node node', nodes[i]? = some node ∧
        (applyControlAfterGenerate rand nodes nodeSchemas mode exc).nodes[i]? = some node' ∧
        changedNode node node') ∧
    ((applyControlAfterGenerate rand nodes nodeSchemas mode exc).didMutate = true →
      ∃ i : ℕ,
        (applyControlAfterGenerate rand nodes nodeSchemas mode exc).nodes[i]? ≠ nodes[i]?) := by
  exact cowInv_result nodes _
    (foldl_processControlNode_cowInv rand nodeSchemas mode nodes nodes.enum
      ⟨none, exc, 0⟩ (fun p hp => (List.mem_enum_iff_getElem?).1 hp) (Or.inl rfl))

/-- Fixture: a node of the seeded type whose seed widget is `5` and whose
control mode is `increment`. -/
def exCtrlData : NodeData :=
  { nodeType := some "Seeded", widgetValues := some [("seed", .num (.finite 5))],
    widgetControlValues := some [("seed", "increment")] }

/-- Fixture: the canvas node carrying `exCtrlData`. -/
def exCtrlNode : GraphNode := { id := "n1", data := some exCtrlData }

/-- Fixture: a schema map holding only the seeded schema. -/
def exCtrlSchemas : NodeSchemaMap := [("Seeded", exSchemaSeed)]

unseal Rat.mul Rat.add Rat.sub Rat.inv in
/-- Witness for C7: with no schema available nothing changes and the
input collection is returned; with the seeded schema the increment
control rewrites the node, and the result differs at index 0. -/
theorem control_engine_copy_on_write_witness :
    (applyControlAfterGenerate (fun _ => 0) [exCtrlNode] [] "after" none).nodes =
      [exCtrlNode] ∧
    ∃ i : ℕ,
      (applyControlAfterGenerate (fun _ => 0) [exCtrlNode] exCtrlSchemas "after" none).nodes[i]? ≠
        [exCtrlNode][i]? := by
  refine ⟨(control_engine_copy_on_write (fun _ => 0) [exCtrlNode] [] "after" none).1
      (by decide),
    (control_engine_copy_on_write (fun _ => 0) [exCtrlNode] exCtrlSchemas "after" none).2.2.2
      (by decide)⟩

/-! ## `execution-context.ts` — the connection validator

The `while` loop of `createsCycle` is embedded as the well-founded
recursion `dfsLoop`; the JavaScript array used as a stack is a list with
its head as the top, so pushing the neighbour list appends its reverse. -/

lemma lookupA_eq_none_of_not_mem_fst {α : Type _} {l : List (String × α)} {k : String}
    (h : k ∉ l.map Prod.fst) : lookupA l k = none := by
  induction l with
  | nil => rfl
  | cons p rest ih =>
      simp only [List.map_cons, List.mem_cons] at h
      push_neg at h
      rw [lookupA]
      rw [if_neg (fun hc => h.1 hc.symm)]
      exact ih h.2

lemma filter_not_mem_cons_sublist (l : List String) (a : String) (visited : List String) :
    List.Sublist (l.filter (fun x => decide (x ∉ a :: visited)))
      (l.filter (fun x => decide (x ∉ visited))) := by
  apply List.monotone_filter_right
  intro x hx
  simp only [decide_eq_true_eq, List.mem_cons] at hx ⊢
  exact fun hc => hx (Or.inr hc)

lemma filter_not_mem_cons_length_lt {a : String} {l visited : List String}
    (ha : a ∈ l) (hnv : a ∉ visited) :
    (l.filter (fun x => decide (x ∉ a :: visited))).length <
      (l.filter (fun x => decide (x ∉ visited))).length := by
  have hsub := filter_not_mem_cons_sublist l a visited
  rcases lt_or_eq_of_le hsub.length_le with h | h
  · exact h
  · exfalso
    have heq := hsub.eq_of_length h
    have ha2 : a ∈ l.filter (fun x => decide (x ∉ visited)) := by
      simp [List.mem_filter, ha, hnv]
    rw [← heq] at ha2
    simp [List.mem_filter] at ha2

lemma filter_not_mem_cons_of_not_mem {a : String} {l : List String} (visited : List String)
    (ha : a ∉ l) :
    (l.filter (fun x => decide (x ∉ a :: visited))) =
      (l.filter (fun x => decide (x ∉ visited))) := by
  apply List.filter_congr
  intro x hx
  have hxa : x ≠ a := fun hc => ha (hc ▸ hx)
  simp [List.mem_cons, hxa]

/-- Every node name occurring in an adjacency map, used only as the
termination measure of the search. -/
def allAdjNodes (adj : List (String × List String)) : List String :=
  adj.map Prod.fst ++ (adj.map Prod.snd).flatten

/-- The `while (stack.length > 0)` loop of `createsCycle`: pop, skip a
falsy id, succeed on the connection source, skip a visited id, otherwise
mark visited and push the unvisited neighbours. -/
def dfsLoop (adj : List (String × List String)) (source : String) :
    List String → List String → Bool
  | _, [] => false
  | visited, nodeId :: rest =>
      if nodeId = "" then dfsLoop adj source visited rest
      else if nodeId = source then true
      else if nodeId ∈ visited then dfsLoop adj source visited rest
      else
        dfsLoop adj source (nodeId :: visited)
          ((((lookupA adj nodeId).getD []).filter
            (fun n => decide (n ∉ nodeId :: visited))).reverse ++ rest)
  termination_by visited stack =>
    (((allAdjNodes adj).filter (fun x => decide (x ∉ visited))).length, stack.length)
  decreasing_by
  · exact Prod.Lex.right _ (Nat.lt_succ_self _)
  · exact Prod.Lex.right _ (Nat.lt_succ_self _)
  · rename_i h3
    by_cases hmem : nodeId ∈ allAdjNodes adj
    · exact Prod.Lex.left _ _ (filter_not_mem_cons_length_lt hmem h3)
    · have hkey : nodeId ∉ (adj.map Prod.fst) := fun hc => hmem (List.mem_append_left _ hc)
      have hnone : lookupA adj nodeId = none := lookupA_eq_none_of_not_mem_fst hkey
      rw [filter_not_mem_cons_of_not_mem _ hmem, hnone]
      exact Prod.Lex.right _ (by simp [Nat.lt_succ_self])

example : dfsLoop [("a", ["b", "c"]), ("b", ["a"])] "x" [] ["a"] = false := by
  simp [dfsLoop, lookupA]

example : dfsLoop [("a", ["b", "c"]), ("b", ["a"])] "c" [] ["a"] = true := by
  simp [dfsLoop, lookupA]

/-- The adjacency map of `createsCycle`: edges with truthy endpoints,
grouped by source in first-seen order, targets appended in edge order. -/
def buildAdjacency (edges : List GraphEdge) : List (String × List String) :=
  edges.foldl
    (fun adj e =>
      match strTruthy e.source, strTruthy e.target with
      | some s, some t =>
          match lookupA adj s with
          | some neighbors => insertA adj s (neighbors ++ [t])
          | none => insertA adj s [t]
      | _, _ => adj)
    []

/-- `createsCycle`: a falsy endpoint or a self-loop counts as a cycle;
otherwise search from the candidate target for the candidate source. -/
def createsCycle (conn : GraphEdge) (edges : List GraphEdge) : Bool :=
  match strTruthy conn.source, strTruthy conn.target with
  | some src, some tgt =>
      if src = tgt then true
      else dfsLoop (buildAdjacency edges) src [] [tgt]
  | _, _ => true

/-- `ResolvedConnectionSlots`. -/
structure ResolvedConnectionSlots where
  sourceNode : GraphNode
  targetNode : GraphNode
  sourceSchema : NodeSchema
  targetSchema : NodeSchema
  sourceSlot : OutputSlot
  targetSlot : InputSlot
deriving DecidableEq, Repr

/-- `isTypeCompatible`: a falsy declared target type is rejected,
otherwise the declared types must match exactly. -/
def isTypeCompatible (resolved : ResolvedConnectionSlots) : Bool :=
  if resolved.targetSlot.valueType = "" then false
  else resolved.sourceSlot.type = resolved.targetSlot.valueType

/-- `resolveConnectionSlots`: truthy endpoints, decoded handle names,
endpoint nodes, schemas and named slots, each failure yielding `null`. -/
def resolveConnectionSlots (conn : GraphEdge) (nodes : List GraphNode)
    (nodeSchemas : NodeSchemaMap) : Option ResolvedConnectionSlots :=
  match strTruthy conn.source, strTruthy conn.target with
  | some src, some tgt =>
      match parseHandleSlotName conn.sourceHandle "out-",
          parseHandleSlotName conn.targetHandle "in-" with
      | some sourceSlotName, some targetSlotName =>
          match nodes.find? (fun n => n.id = src), nodes.find? (fun n => n.id = tgt) with
          | some sourceNode, some targetNode =>
              match (sourceNode.data.bind (·.nodeType)).bind (lookupA nodeSchemas),
                  (targetNode.data.bind (·.nodeType)).bind (lookupA nodeSchemas) with
              | some sourceSchema, some targetSchema =>
                  match sourceSchema.outputs.find? (fun s => s.name = sourceSlotName),
                      targetSchema.inputs.find? (fun s => s.name = targetSlotName) with
                  | some sourceSlot, some targetSlot =>
                      some ⟨sourceNode, targetNode, sourceSchema, targetSchema,
                        sourceSlot, targetSlot⟩
                  | _, _ => none
              | _, _ => none
          | _, _ => none
      | _, _ => none
  | _, _ => none

/-- `isConnectionValid`: resolution, type compatibility, then the cycle
check. -/
def isConnectionValid (conn : GraphEdge) (nodes : List GraphNode)
    (nodeSchemas : NodeSchemaMap) (edges : List GraphEdge) : Bool :=
  match resolveConnectionSlots conn nodes nodeSchemas with
  | none => false
  | some resolved =>
      if ¬ isTypeCompatible resolved then false
      else if createsCycle conn edges then false
      else true

/-- One hop of the adjacency map. -/
def AdjStep (adj : List (String × List String)) (a b : String) : Prop :=
  b ∈ (lookupA adj a).getD []

/-- One directed hop over the edge set: an existing edge with truthy
endpoints from `a` to `b`. -/
def EdgeStep (edges : List GraphEdge) (a b : String) : Prop :=
  ∃ e ∈ edges, strTruthy e.source = some a ∧ strTruthy e.target = some b

/-- A directed path (possibly empty) over the edge set. -/
def Reaches (edges : List GraphEdge) : String → String → Prop :=
  Relation.ReflTransGen (EdgeStep edges)

lemma EdgeStep_cons (e : GraphEdge) (es : List GraphEdge) (a b : String) :
    EdgeStep (e :: es) a b ↔
      (strTruthy e.source = some a ∧ strTruthy e.target = some b) ∨ EdgeStep es a b := by
  constructor
  · rintro ⟨e', he', hp⟩
    rcases List.mem_cons.mp he' with rfl | hmem
    · exact Or.inl hp
    · exact Or.inr ⟨e', hmem, hp⟩
  · rintro (hp | ⟨e', hmem, hp⟩)
    · exact ⟨e, List.mem_cons_self e es, hp⟩
    · exact ⟨e', List.mem_cons_of_mem e hmem, hp⟩

lemma buildAdjacency_go (es : List GraphEdge) (acc : List (String × List String))
    (a b : String) :
    AdjStep (es.foldl
      (fun adj e =>
        match strTruthy e.source, strTruthy e.target with
        | some s, some t =>
            match lookupA adj s with
            | some neighbors => insertA adj s (neighbors ++ [t])
            | none => insertA adj s [t]
        | _, _ => adj)
      acc) a b ↔ AdjStep acc a b ∨ EdgeStep es a b := by
  induction es generalizing acc with
  | nil =>
      simp [EdgeStep]
  | cons e es ih =>
      rw [List.foldl_cons, ih, EdgeStep_cons]
      have hstep : AdjStep (match strTruthy e.source, strTruthy e.target with
          | some s, some t =>
              match lookupA acc s with
              | some neighbors => insertA acc s (neighbors ++ [t])
              | none => insertA acc s [t]
          | _, _ => acc) a b ↔
          AdjStep acc a b ∨
            (strTruthy e.source = some a ∧ strTruthy e.target = some b) := by
        rcases hs : strTruthy e.source with _ | s
        · simp [AdjStep]
        · rcases ht : strTruthy e.target with _ | t
          · simp [AdjStep]
          · have hcollapse : (match lookupA acc s with
                | some neighbors => insertA acc s (neighbors ++ [t])
                | none => insertA acc s [t]) =
                insertA acc s ((lookupA acc s).getD [] ++ [t]) := by
              rcases lookupA acc s with _ | ns <;> rfl
            dsimp only
            rw [hcollapse]
            unfold AdjStep
            rw [lookupA_insertA]
            by_cases has : a = s
            · subst has
              rw [if_pos rfl]
              simp only [Option.getD_some, List.mem_append, List.mem_singleton,
                Option.some.injEq]
              constructor
              · rintro (h | rfl)
                · exact Or.inl h
                · exact Or.inr ⟨by simp, rfl⟩
              · rintro (h | ⟨-, rfl⟩)
                · exact Or.inl h
                · exact Or.inr rfl
            · rw [if_neg has]
              simp only [Option.some.injEq]
              constructor
              · exact fun h => Or.inl h
              · rintro (h | ⟨rfl, _⟩)
                · exact h
                · exact absurd rfl has
      rw [hstep, or_assoc]

/-- The adjacency map of the cycle search holds exactly the truthy hops
of the edge set. -/
lemma buildAdjacency_adjStep (edges : List GraphEdge) (a b : String) :
    AdjStep (buildAdjacency edges) a b ↔ EdgeStep edges a b := by
  rw [buildAdjacency, buildAdjacency_go]
  simp [AdjStep, lookupA]

lemma dfsLoop_nil (adj : List (String × List String)) (source : String)
    (visited : List String) : dfsLoop adj source visited [] = false := by
  rw [dfsLoop]

lemma dfsLoop_skip (adj : List (String × List String)) (source : String)
    (visited rest : List String) :
    dfsLoop adj source visited ("" :: rest) = dfsLoop adj source visited rest := by
  rw [dfsLoop, if_pos rfl]

lemma dfsLoop_cons (adj : List (String × List String)) (source : String)
    (visited : List String) (nodeId : String) (rest : List String) (h0 : ¬ nodeId = "") :
    dfsLoop adj source visited (nodeId :: rest) =
      if nodeId = source then true
      else if nodeId ∈ visited then dfsLoop adj source visited rest
      else dfsLoop adj source (nodeId :: visited)
        ((((lookupA adj nodeId).getD []).filter
          (fun n => decide (n ∉ nodeId :: visited))).reverse ++ rest) := by
  rw [dfsLoop, if_neg h0]

/-- A recorded path through the adjacency map, listing its nodes. -/
inductive AdjWalk (adj : List (String × List String)) : String → String → List String → Prop
  | refl (a : String) : AdjWalk adj a a [a]
  | cons {a b c : String} {l : List String} (hab : AdjStep adj a b)
      (h : AdjWalk adj b c l) : AdjWalk adj a c (a :: l)

lemma AdjWalk.start_mem {adj : List (String × List String)} {a c : String}
    {l : List String} (h : AdjWalk adj a c l) : a ∈ l := by
  cases h with
  | refl => exact List.mem_singleton.mpr rfl
  | cons hab h => exact List.mem_cons_self _ _

lemma AdjWalk.suffix_of_mem {adj : List (String × List String)} {a c : String}
    {l : List String} (h : AdjWalk adj a c l) {x : String} (hx : x ∈ l) :
    ∃ l', AdjWalk adj x c l' ∧ List.IsSuffix l' l := by
  induction h with
  | refl a =>
      rw [List.mem_singleton] at hx
      subst hx
      exact ⟨[x], AdjWalk.refl x, List.suffix_rfl⟩
  | cons hab hw ih =>
      rename_i a b c l
      rcases List.mem_cons.mp hx with rfl | hx'
      · exact ⟨x :: l, AdjWalk.cons hab hw, List.suffix_rfl⟩
      · obtain ⟨l', hw', hsuf⟩ := ih hx'
        exact ⟨l', hw', hsuf.trans (List.suffix_cons a l)⟩

lemma AdjWalk.dedup {adj : List (String × List String)} {a c : String}
    {l : List String} (h : AdjWalk adj a c l) :
    ∃ l', AdjWalk adj a c l' ∧ l' ⊆ l ∧ l'.Nodup := by
  induction h with
  | refl a => exact ⟨[a], AdjWalk.refl a, fun x hx => hx, List.nodup_singleton a⟩
  | cons hab hw ih =>
      rename_i a b c l
      obtain ⟨l', hw', hsub, hnd⟩ := ih
      by_cases ha : a ∈ l'
      · obtain ⟨l'', hw'', hsuf⟩ := hw'.suffix_of_mem ha
        exact ⟨l'', hw'', fun x hx => List.mem_cons_of_mem a (hsub (hsuf.subset hx)),
          hnd.sublist hsuf.sublist⟩
      · refine ⟨a :: l', AdjWalk.cons hab hw', ?_, hnd.cons ha⟩
        intro x hx
        rcases List.mem_cons.mp hx with rfl | hx'
        · exact List.mem_cons_self _ _
        · exact List.mem_cons_of_mem a (hsub hx')

lemma adjReach_iff_walk {adj : List (String × List String)} {a c : String} :
    Relation.ReflTransGen (AdjStep adj) a c ↔ ∃ l, AdjWalk adj a c l := by
  constructor
  · intro h
    induction h using Relation.ReflTransGen.head_induction_on with
    | refl => exact ⟨[c], AdjWalk.refl c⟩
    | head hab _ ih =>
        obtain ⟨l, hw⟩ := ih
        exact ⟨_ :: l, AdjWalk.cons hab hw⟩
  · rintro ⟨l, hw⟩
    induction hw with
    | refl a => exact Relation.ReflTransGen.refl
    | cons hab hw ih => exact Relation.ReflTransGen.head hab ih

lemma dfsLoop_sound (adj : List (String × List String)) (source tgt : String) :
    ∀ visited stack : List String,
      (∀ v ∈ stack, Relation.ReflTransGen (AdjStep adj) tgt v) →
      dfsLoop adj source visited stack = true →
      Relation.ReflTransGen (AdjStep adj) tgt source := by
  intro visited stack
  induction visited, stack using dfsLoop.induct adj source with
  | case1 v =>
      intro _ h
      rw [dfsLoop_nil] at h
      exact absurd h (by simp)
  | case2 visited rest ih =>
      intro hstack h
      rw [dfsLoop_skip] at h
      exact ih (fun v hv => hstack v (List.mem_cons_of_mem _ hv)) h
  | case3 visited rest hns =>
      intro hstack _
      exact hstack source (List.mem_cons_self _ _)
  | case4 visited nodeId rest h1 h2 h3 ih =>
      intro hstack h
      rw [dfsLoop_cons _ _ _ _ _ h1, if_neg h2, if_pos h3] at h
      exact ih (fun v hv => hstack v (List.mem_cons_of_mem _ hv)) h
  | case5 visited nodeId rest h1 h2 h3 ih =>
      intro hstack h
      rw [dfsLoop_cons _ _ _ _ _ h1, if_neg h2, if_neg h3] at h
      refine ih ?_ h
      intro v hv
      rcases List.mem_append.mp hv with hv1 | hv2
      · rw [List.mem_reverse] at hv1
        exact (hstack nodeId (List.mem_cons_self _ _)).tail (List.mem_filter.mp hv1).1
      · exact hstack v (List.mem_cons_of_mem _ hv2)

lemma dfsLoop_complete (adj : List (String × List String)) (source : String)
    (hvals : ∀ a b, AdjStep adj a b → b ≠ "") :
    ∀ visited stack : List String,
      (∀ v ∈ stack, v ≠ "") →
      (∃ u l, u ∈ stack ∧ AdjWalk adj u source l ∧ ∀ x ∈ l, x ∉ visited) →
      dfsLoop adj source visited stack = true := by
  intro visited stack
  induction visited, stack using dfsLoop.induct adj source with
  | case1 v =>
      rintro _ ⟨u, l, hu, _, _⟩
      exact absurd hu (List.not_mem_nil u)
  | case2 visited rest ih =>
      intro htr _
      exact absurd rfl (htr "" (List.mem_cons_self _ _))
  | case3 visited rest hns =>
      intro _ _
      rw [dfsLoop_cons _ _ _ _ _ hns, if_pos rfl]
  | case4 visited nodeId rest h1 h2 h3 ih =>
      rintro htr ⟨u, l, hu, hw, hl⟩
      rw [dfsLoop_cons _ _ _ _ _ h1, if_neg h2, if_pos h3]
      rcases List.mem_cons.mp hu with rfl | hu'
      · exact absurd h3 (hl u hw.start_mem)
      · exact ih (fun v hv => htr v (List.mem_cons_of_mem _ hv)) ⟨u, l, hu', hw, hl⟩
  | case5 visited nodeId rest h1 h2 h3 ih =>
      rintro htr ⟨u, l, hu, hw, hl⟩
      rw [dfsLoop_cons _ _ _ _ _ h1, if_neg h2, if_neg h3]
      apply ih
      · intro v hv
        rcases List.mem_append.mp hv with hv1 | hv2
        · rw [List.mem_reverse] at hv1
          exact hvals nodeId v (List.mem_filter.mp hv1).1
        · exact htr v (List.mem_cons_of_mem _ hv2)
      · by_cases hnl : nodeId ∈ l
        · obtain ⟨l1, hw1, hsuf⟩ := hw.suffix_of_mem hnl
          obtain ⟨l2, hw2, hsub2, hnd2⟩ := hw1.dedup
          cases hw2 with
          | refl => exact absurd rfl h2
          | cons hab hw3 =>
              rename_i b l3
              have hnodup := List.nodup_cons.mp hnd2
              refine ⟨b, l3, ?_, hw3, ?_⟩
              · apply List.mem_append.mpr
                left
                rw [List.mem_reverse]
                apply List.mem_filter.mpr
                refine ⟨hab, ?_⟩
                simp only [decide_eq_true_eq, List.mem_cons]
                push_neg
                refine ⟨fun hc => hnodup.1 (hc ▸ hw3.start_mem), ?_⟩
                exact hl b (hsuf.subset (hsub2 (List.mem_cons_of_mem _ hw3.start_mem)))
              · intro x hx
                simp only [List.mem_cons]
                push_neg
                refine ⟨fun hc => hnodup.1 (hc ▸ hx), ?_⟩
                exact hl x (hsuf.subset (hsub2 (List.mem_cons_of_mem _ hx)))
        · rcases List.mem_cons.mp hu with rfl | hu'
          · exact absurd hw.start_mem hnl
          · refine ⟨u, l, List.mem_append.mpr (Or.inr hu'), hw, ?_⟩
            intro x hx
            simp only [List.mem_cons]
            push_neg
            exact ⟨fun hc => hnl (hc ▸ hx), hl x hx⟩

lemma strTruthy_ne_empty {x : Option String} {s : String} (h : strTruthy x = some s) :
    s ≠ "" := by
  rcases x with _ | t
  · exact absurd h (by simp [strTruthy])
  · simp only [strTruthy] at h
    by_cases ht : t = ""
    · rw [if_pos ht] at h
      exact absurd h (by simp)
    · rw [if_neg ht] at h
      exact (Option.some.inj h) ▸ ht

lemma dfsLoop_run_iff (adj : List (String × List String)) (source tgt : String)
    (hvals : ∀ a b, AdjStep adj a b → b ≠ "") (htgt : tgt ≠ "") :
    dfsLoop adj source [] [tgt] = true ↔
      Relation.ReflTransGen (AdjStep adj) tgt source := by
  constructor
  · intro h
    refine dfsLoop_sound adj source tgt [] [tgt] ?_ h
    intro v hv
    rw [List.mem_singleton] at hv
    subst hv
    exact Relation.ReflTransGen.refl
  · intro h
    obtain ⟨l, hw⟩ := adjReach_iff_walk.mp h
    refine dfsLoop_complete adj source hvals [] [tgt] ?_
      ⟨tgt, l, List.mem_singleton.mpr rfl, hw, fun x _ => List.not_mem_nil x⟩
    intro v hv
    rw [List.mem_singleton] at hv
    subst hv
    exact htgt

lemma reaches_iff_adjReach (edges : List GraphEdge) (a b : String) :
    Reaches edges a b ↔ Relation.ReflTransGen (AdjStep (buildAdjacency edges)) a b := by
  constructor
  · exact Relation.ReflTransGen.mono (fun x y h => (buildAdjacency_adjStep edges x y).mpr h)
  · exact Relation.ReflTransGen.mono (fun x y h => (buildAdjacency_adjStep edges x y).mp h)

lemma createsCycle_iff (conn : GraphEdge) (edges : List GraphEdge) (src tgt : String)
    (hs : strTruthy conn.source = some src) (ht : strTruthy conn.target = some tgt) :
    createsCycle conn edges = true ↔ src = tgt ∨ Reaches edges tgt src := by
  unfold createsCycle
  rw [hs, ht]
  dsimp only
  by_cases hst : src = tgt
  · rw [if_pos hst]
    simp [hst]
  · rw [if_neg hst]
    have hvals : ∀ a b, AdjStep (buildAdjacency edges) a b → b ≠ "" := by
      intro a b hab
      obtain ⟨e, _, _, hbt⟩ := (buildAdjacency_adjStep edges a b).mp hab
      exact strTruthy_ne_empty hbt
    rw [dfsLoop_run_iff _ _ _ hvals (strTruthy_ne_empty ht), reaches_iff_adjReach]
    exact ⟨fun h => Or.inr h, fun h => h.resolve_left hst⟩

lemma resolveConnectionSlots_truthy {conn : GraphEdge} {nodes : List GraphNode}
    {nodeSchemas : NodeSchemaMap} {resolved : ResolvedConnectionSlots}
    (h : resolveConnectionSlots conn nodes nodeSchemas = some resolved) :
    ∃ src tgt, strTruthy conn.source = some src ∧ strTruthy conn.target = some tgt := by
  unfold resolveConnectionSlots at h
  rcases hs : strTruthy conn.source with _ | src
  · rw [hs] at h
    exact absurd h (by simp)
  · rcases ht : strTruthy conn.target with _ | tgt
    · rw [hs, ht] at h
      exact absurd h (by simp)
    · exact ⟨src, tgt, rfl, rfl⟩

/-- The claim's acceptance conditions, rendered verbatim: resolution of
endpoints, schemas and slots succeeds, the declared types match exactly,
the edge is no self-loop, and no directed path runs from the candidate
target back to the candidate source. -/
def ValidSpecOrig (conn : GraphEdge) (nodes : List GraphNode)
    (nodeSchemas : NodeSchemaMap) (edges : List GraphEdge) : Prop :=
  ∃ src tgt resolved,
    strTruthy conn.source = some src ∧ strTruthy conn.target = some tgt ∧
    resolveConnectionSlots conn nodes nodeSchemas = some resolved ∧
    resolved.targetSlot.valueType = resolved.sourceSlot.type ∧
    src ≠ tgt ∧ ¬ Reaches edges tgt src

/-- The amended acceptance conditions: additionally the declared target
type must be non-empty, matching the falsy-type guard of
`isTypeCompatible`. -/
def ValidSpecAmended (conn : GraphEdge) (nodes : List GraphNode)
    (nodeSchemas : NodeSchemaMap) (edges : List GraphEdge) : Prop :=
  ∃ src tgt resolved,
    strTruthy conn.source = some src ∧ strTruthy conn.target = some tgt ∧
    resolveConnectionSlots conn nodes nodeSchemas = some resolved ∧
    resolved.targetSlot.valueType ≠ "" ∧
    resolved.sourceSlot.type = resolved.targetSlot.valueType ∧
    src ≠ tgt ∧ ¬ Reaches edges tgt src

/-- Fixture: a required input slot with an empty declared type. -/
def exSlotEmptyIn : InputSlot :=
  { name := "i", group := "required", valueType := "" }

/-- Fixture: a schema with an empty-typed input and an empty-typed output. -/
def exSchemaEmpty : NodeSchema :=
  ⟨"Empty", [exSlotEmptyIn], [⟨"o", ""⟩]⟩

/-- Fixture: the schema map for the empty-typed schema. -/
def exSchemasEmpty : NodeSchemaMap := [("E", exSchemaEmpty)]

/-- Fixture: two nodes of the empty-typed schema. -/
def exNodeE1 : GraphNode := ⟨"n1", some { nodeType := some "E" }⟩

/-- Fixture: the second empty-typed node. -/
def exNodeE2 : GraphNode := ⟨"n2", some { nodeType := some "E" }⟩

/-- Fixture: a fully-resolvable candidate connection between the two
empty-typed nodes. -/
def exConnEE : GraphEdge :=
  { source := some "n1", target := some "n2",
    sourceHandle := some "out-o", targetHandle := some "in-i" }

/-- **C3 counterexample.**  Both declared types are the empty string, so
they are exactly equal and every condition of the claim holds — the
handles decode, nodes, schemas and slots resolve, the edge is no
self-loop and the edge set is empty — yet the validator rejects the
connection, because `isTypeCompatible` first rejects any falsy declared
target type. -/
theorem connection_validator_cex :
    ValidSpecOrig exConnEE [exNodeE1, exNodeE2] exSchemasEmpty [] ∧
    isConnectionValid exConnEE [exNodeE1, exNodeE2] exSchemasEmpty [] = false := by
  constructor
  · refine ⟨"n1", "n2",
      ⟨exNodeE1, exNodeE2, exSchemaEmpty, exSchemaEmpty, ⟨"o", ""⟩, exSlotEmptyIn⟩,
      by decide, by decide, by decide, by decide, by decide, ?_⟩
    intro h
    rcases Relation.ReflTransGen.cases_head h with heq | ⟨c, hstep, _⟩
    · exact absurd heq (by decide)
    · obtain ⟨e, he, _⟩ := hstep
      exact absurd he (List.not_mem_nil e)
  · decide

/-- **C3 (amended).**  The connection validator accepts exactly when the
endpoints are truthy and handles, nodes, schemas and slots resolve, the
declared target type is non-empty and equals the declared source type
exactly, the edge is not a self-loop, and no directed path over the
existing edges (those with truthy endpoints) runs from the candidate
target back to the candidate source.  The model is purely functional, so
the validator mutates nothing. -/
theorem connection_validator_amended (conn : GraphEdge) (nodes : List GraphNode)
    (nodeSchemas : NodeSchemaMap) (edges : List GraphEdge) :
    isConnectionValid conn nodes nodeSchemas edges = true ↔
      ValidSpecAmended conn nodes nodeSchemas edges := by
  unfold isConnectionValid
  rcases hres : resolveConnectionSlots conn nodes nodeSchemas with _ | resolved
  · dsimp only
    constructor
    · intro h
      exact absurd h (by simp)
    · rintro ⟨src, tgt, resolved, hs, ht, hres', _⟩
      rw [hres] at hres'
      exact absurd hres' (by simp)
  · dsimp only
    constructor
    · intro h
      by_cases hT : isTypeCompatible resolved = true
      · rw [if_neg (not_not_intro hT)] at h
        by_cases hC : createsCycle conn edges = true
        · rw [if_pos hC] at h
          exact absurd h (by simp)
        · obtain ⟨src, tgt, hs, ht⟩ := resolveConnectionSlots_truthy hres
          have hnor : ¬ (src = tgt ∨ Reaches edges tgt src) :=
            fun hor => hC ((createsCycle_iff conn edges src tgt hs ht).mpr hor)
          push_neg at hnor
          unfold isTypeCompatible at hT
          by_cases hv : resolved.targetSlot.valueType = ""
          · rw [if_pos hv] at hT
            exact absurd hT (by simp)
          · rw [if_neg hv] at hT
            have hty : resolved.sourceSlot.type = resolved.targetSlot.valueType := by
              simpa using hT
            exact ⟨src, tgt, resolved, hs, ht, hres, hv, hty, hnor.1, hnor.2⟩
      · rw [if_pos hT] at h
        exact absurd h (by simp)
    · rintro ⟨src, tgt, resolved', hs, ht, hres', hv, hty, hst, hnr⟩
      rw [hres] at hres'
      obtain rfl : resolved = resolved' := Option.some.inj hres' 
      have hT : isTypeCompatible resolved = true := by
        unfold isTypeCompatible
        rw [if_neg hv]
        simp [hty]
      have hC : createsCycle conn edges = false := by
        rcases Bool.eq_false_or_eq_true (createsCycle conn edges) with hC | hC
        · exact absurd ((createsCycle_iff conn edges src tgt hs ht).mp hC)
            (by push_neg
                exact ⟨hst, hnr⟩)
        · exact hC
      rw [if_neg (not_not_intro hT), if_neg (by simp [hC])]
